import Mathlib

/-!
# Verification of the conversational-BI glue code (`app.py`, `languages.py`)

A shallow embedding of the back-end logic of `app.py`:

* `clean_json_from_string` — the first-`{`/last-`}` JSON extraction helper;
* `json_loads` — a model of Python `json.loads` (default decoder);
* `get_assistant_response` — LLM call, envelope parse, EXECUTE dispatch to
  BigQuery, DATA/ERROR envelope construction;
* `process_and_display_prompt` — the per-turn UI handler: session-state
  mutation, the KPI / table+chart renderer, history appends;
* the clear-conversation button handler.

External services (the Cerebras chat completion and the BigQuery client) are
modelled as oracle functions passed in as parameters; every invocation of an
oracle is recorded in a `CallLog`, so claims about how often and with what
payload the external services are called become statements about the log.
Strings are modelled as `List Char`.
-/

namespace MuletaBI

/-- The apostrophe character (used in Python error-message formatting). -/
def squote : Char := Char.ofNat 39

/-- Python values as produced by `json.loads` / consumed by `json.dumps`.
Numeric literals keep their lexeme (`json.loads` turns them into `int`/`float`;
no claim compares numeric values across distinct lexemes).  An object keeps its
key/value pairs in parse order; lookups (`objGet`) take the *last* binding of a
key, matching Python `dict` construction from duplicate keys. -/
inductive Json where
| null : Json
| bool : Bool → Json
| num : List Char → Json
| nan : Json
| inf : Bool → Json
| str : List Char → Json
| arr : List Json → Json
| obj : List (List Char × Json) → Json

/-- JSON whitespace (`json.decoder` skips exactly these four characters). -/
def isJsonWs (c : Char) : Bool := c = ' ' || c = '\t' || c = '\n' || c = '\r'

/-- Skip leading JSON whitespace. -/
def skipWs : List Char → List Char
| [] => []
| c :: cs => if isJsonWs c then skipWs cs else c :: cs

/-- Hex digit value. -/
def hexVal? (c : Char) : Option Nat :=
  if '0' ≤ c ∧ c ≤ '9' then some (c.toNat - '0'.toNat)
  else if 'a' ≤ c ∧ c ≤ 'f' then some (c.toNat - 'a'.toNat + 10)
  else if 'A' ≤ c ∧ c ≤ 'F' then some (c.toNat - 'A'.toNat + 10)
  else none

/-- Single-character JSON string escapes. -/
def escChar? (c : Char) : Option Char :=
  if c = '\"' then some '\"'
  else if c = '\\' then some '\\'
  else if c = '/' then some '/'
  else if c = 'b' then some (Char.ofNat 8)
  else if c = 'f' then some (Char.ofNat 12)
  else if c = 'n' then some '\n'
  else if c = 'r' then some '\r'
  else if c = 't' then some '\t'
  else none

/-- Parse the body of a JSON string (the opening quote already consumed),
returning the decoded characters and the remaining input.  Raw control
characters are rejected (the decoder's default strict mode);  `\uXXXX`
escapes decode to the code unit (astral surrogate pairing is out of scope —
no claim exercises it). -/
def parseStringBody : List Char → Option (List Char × List Char)
| [] => none
| c :: cs =>
  if c = '\"' then some ([], cs)
  else if c = '\\' then
    match cs with
    | [] => none
    | e :: cs2 =>
      if e = 'u' then
        match cs2 with
        | a :: b :: c2 :: d :: cs3 =>
          match hexVal? a, hexVal? b, hexVal? c2, hexVal? d with
          | some ha, some hb, some hc, some hd =>
            match parseStringBody cs3 with
            | some (s, r) =>
              some (Char.ofNat (((ha * 16 + hb) * 16 + hc) * 16 + hd) :: s, r)
            | none => none
          | _, _, _, _ => none
        | _ => none
      else
        match escChar? e with
        | some ec =>
          match parseStringBody cs2 with
          | some (s, r) => some (ec :: s, r)
          | none => none
        | none => none
  else if c.toNat < 32 then none
  else
    match parseStringBody cs with
    | some (s, r) => some (c :: s, r)
    | none => none

/-- Longest prefix of decimal digits. -/
def takeDigits : List Char → (List Char × List Char)
| [] => ([], [])
| c :: cs =>
  if c.isDigit then
    match takeDigits cs with
    | (ds, r) => (c :: ds, r)
  else ([], c :: cs)

/-- Integer part of a JSON number: `0`, or a nonzero digit followed by digits
(the decoder's `NUMBER_RE`). -/
def lexIntPart : List Char → Option (List Char × List Char)
| [] => none
| c :: cs =>
  if c = '0' then some (['0'], cs)
  else if c.isDigit then
    match takeDigits cs with
    | (ds, r) => some (c :: ds, r)
  else none

/-- Optional fraction part `(\.\d+)?`: consumed only when the dot is followed
by at least one digit. -/
def lexFrac : List Char → (List Char × List Char)
| [] => ([], [])
| c :: cs =>
  if c = '.' then
    match takeDigits cs with
    | ([], _) => ([], c :: cs)
    | (ds, r) => ('.' :: ds, r)
  else ([], c :: cs)

/-- Optional exponent part `([eE][-+]?\d+)?`. -/
def lexExp : List Char → (List Char × List Char)
| [] => ([], [])
| c :: cs =>
  if c = 'e' ∨ c = 'E' then
    match cs with
    | [] => ([], [c])
    | s :: cs2 =>
      if s = '+' ∨ s = '-' then
        match takeDigits cs2 with
        | ([], _) => ([], c :: cs)
        | (ds, r) => (c :: s :: ds, r)
      else
        match takeDigits cs with
        | ([], _) => ([], c :: cs)
        | (ds, r) => (c :: ds, r)
  else ([], c :: cs)

/-- Lex one JSON number literal, returning its lexeme. -/
def lexNumber : List Char → Option (List Char × List Char)
| [] => none
| c :: cs1 =>
  if c = '-' then
    match lexIntPart cs1 with
    | some (ip, r1) =>
      match lexFrac r1 with
      | (fp, r2) =>
        match lexExp r2 with
        | (ep, r3) => some ('-' :: (ip ++ fp ++ ep), r3)
    | none => none
  else
    match lexIntPart (c :: cs1) with
    | some (ip, r1) =>
      match lexFrac r1 with
      | (fp, r2) =>
        match lexExp r2 with
        | (ep, r3) => some (ip ++ fp ++ ep, r3)
    | none => none

/-- Expect a fixed run of characters. -/
def expectChars : List Char → List Char → Option (List Char)
| [], cs => some cs
| _ :: _, [] => none
| e :: es, c :: cs => if c = e then expectChars es cs else none

/-- Insert a key/value pair with Python `dict` update semantics: an existing
key keeps its (first) position but takes the new value; a new key is appended.
`json.loads` builds its dicts this way, so parsed objects never carry
duplicate keys. -/
def updatePairs : List (List Char × Json) → List Char → Json → List (List Char × Json)
| [], k, v => [(k, v)]
| (k2, v2) :: rest, k, v =>
  if k2 = k then (k2, v) :: rest else (k2, v2) :: updatePairs rest k v

mutual

/-- Parse one JSON value (model of `json.decoder`'s scanner; fuel-indexed to
make the mutual recursion obviously terminating).  `NaN`, `Infinity` and
`-Infinity` are accepted, as in Python's default `allow_nan=True`. -/
def parseValue : Nat → List Char → Option (Json × List Char)
| 0, _ => none
| Nat.succ fuel, cs =>
  match skipWs cs with
  | [] => none
  | c :: rest =>
    if c = '\x7b' then parseObjBody fuel rest
    else if c = '[' then parseArrBody fuel rest
    else if c = '\"' then
      match parseStringBody rest with
      | some (s, r) => some (Json.str s, r)
      | none => none
    else if c = 't' then
      match expectChars ['r', 'u', 'e'] rest with
      | some r => some (Json.bool true, r)
      | none => none
    else if c = 'f' then
      match expectChars ['a', 'l', 's', 'e'] rest with
      | some r => some (Json.bool false, r)
      | none => none
    else if c = 'n' then
      match expectChars ['u', 'l', 'l'] rest with
      | some r => some (Json.null, r)
      | none => none
    else if c = 'N' then
      match expectChars ['a', 'N'] rest with
      | some r => some (Json.nan, r)
      | none => none
    else if c = 'I' then
      match expectChars ['n', 'f', 'i', 'n', 'i', 't', 'y'] rest with
      | some r => some (Json.inf false, r)
      | none => none
    else if c = '-' then
      match rest with
      | 'I' :: r2 =>
        match expectChars ['n', 'f', 'i', 'n', 'i', 't', 'y'] r2 with
        | some r => some (Json.inf true, r)
        | none => none
      | _ =>
        match lexNumber (c :: rest) with
        | some (lex, r) => some (Json.num lex, r)
        | none => none
    else if c.isDigit then
      match lexNumber (c :: rest) with
      | some (lex, r) => some (Json.num lex, r)
      | none => none
    else none

/-- Parse an object body (input starts right after the `\x7b`). -/
def parseObjBody : Nat → List Char → Option (Json × List Char)
| 0, _ => none
| Nat.succ fuel, cs =>
  match skipWs cs with
  | [] => none
  | c :: rest =>
    if c = '\x7d' then some (Json.obj [], rest)
    else
      match parsePair fuel cs with
      | some (kv, r) => parseMembersRest fuel [kv] r
      | none => none

/-- Parse one `"key": value` pair. -/
def parsePair : Nat → List Char → Option ((List Char × Json) × List Char)
| 0, _ => none
| Nat.succ fuel, cs =>
  match skipWs cs with
  | [] => none
  | c :: rest =>
    if c = '\"' then
      match parseStringBody rest with
      | some (k, r1) =>
        match skipWs r1 with
        | [] => none
        | c2 :: r2 =>
          if c2 = ':' then
            match parseValue fuel r2 with
            | some (v, r3) => some ((k, v), r3)
            | none => none
          else none
      | none => none
    else none

/-- Parse the members after the first pair: `, pair`* then `\x7d`.  The
accumulator is kept in insertion order with `dict` update semantics. -/
def parseMembersRest : Nat → List (List Char × Json) → List Char → Option (Json × List Char)
| 0, _, _ => none
| Nat.succ fuel, acc, cs =>
  match skipWs cs with
  | [] => none
  | c :: rest =>
    if c = '\x7d' then some (Json.obj acc, rest)
    else if c = ',' then
      match parsePair fuel rest with
      | some (kv, r) => parseMembersRest fuel (updatePairs acc kv.1 kv.2) r
      | none => none
    else none

/-- Parse an array body (input starts right after the `[`). -/
def parseArrBody : Nat → List Char → Option (Json × List Char)
| 0, _ => none
| Nat.succ fuel, cs =>
  match skipWs cs with
  | [] => none
  | c :: rest =>
    if c = ']' then some (Json.arr [], rest)
    else
      match parseValue fuel cs with
      | some (v, r) => parseElemsRest fuel [v] r
      | none => none

/-- Parse the elements after the first one: `, value`* then `]`. -/
def parseElemsRest : Nat → List Json → List Char → Option (Json × List Char)
| 0, _, _ => none
| Nat.succ fuel, acc, cs =>
  match skipWs cs with
  | [] => none
  | c :: rest =>
    if c = ']' then some (Json.arr acc.reverse, rest)
    else if c = ',' then
      match parseValue fuel rest with
      | some (v, r) => parseElemsRest fuel (v :: acc) r
      | none => none
    else none

end

/-- Model of Python `json.loads`: skip whitespace, parse one value, require
the rest to be whitespace only (`Extra data` otherwise).  `none` models a
raised `json.JSONDecodeError`.  Fuel `length + 1` is ample: every recursion
level consumes input. -/
def json_loads (t : List Char) : Option Json :=
  match parseValue (t.length + 1) t with
  | some (v, rest) => if skipWs rest = [] then some v else none
  | none => none

/-- Index of the first occurrence of `c` (Python `text.find(c)` returns `-1`
when absent, modelled by `none`). -/
def firstIdx : List Char → Char → Option Nat
| [], _ => none
| x :: xs, c =>
  if x = c then some 0
  else
    match firstIdx xs c with
    | some i => some (i + 1)
    | none => none

/-- Index of the last occurrence of `c` (Python `text.rfind(c)`). -/
def lastIdx : List Char → Char → Option Nat
| [], _ => none
| x :: xs, c =>
  match lastIdx xs c with
  | some i => some (i + 1)
  | none => if x = c then some 0 else none

/-- `app.py` lines 115–121: take the substring from the first `\x7b` to the
last `\x7d` inclusive; if either brace is absent (`find`/`rfind` = -1) the
text is returned unchanged.  The slice `text[s:e+1]` is `drop s` then
`take (e+1-s)` (empty when `e+1 ≤ s`, as in Python). -/
def clean_json_from_string (text : List Char) : List Char :=
  match firstIdx text '\x7b', lastIdx text '\x7d' with
  | some s, some e => ((text.drop s).take (e + 1 - s))
  | _, _ => text

/-! ## Python string and number formatting helpers used by the renderer -/

/-- Lower-case hex digit. -/
def hexDigit (n : Nat) : Char :=
  if n < 10 then Char.ofNat ('0'.toNat + n) else Char.ofNat ('a'.toNat + (n - 10))

/-- `json.dumps` escaping of one character with the default `ensure_ascii`:
quote, backslash and the short escapes, `\uXXXX` for the rest outside
`0x20..0x7e` (astral surrogate pairing out of scope; no claim exercises it). -/
def escapeStringChar (c : Char) : List Char :=
  if c = '\"' then ['\\', '\"']
  else if c = '\\' then ['\\', '\\']
  else if c = '\n' then ['\\', 'n']
  else if c = '\r' then ['\\', 'r']
  else if c = '\t' then ['\\', 't']
  else if c.toNat = 8 then ['\\', 'b']
  else if c.toNat = 12 then ['\\', 'f']
  else if c.toNat < 32 ∨ 126 < c.toNat then
    ['\\', 'u', hexDigit (c.toNat / 4096 % 16), hexDigit (c.toNat / 256 % 16),
     hexDigit (c.toNat / 16 % 16), hexDigit (c.toNat % 16)]
  else [c]

/-- Serialize a JSON string literal. -/
def dumpString (s : List Char) : List Char :=
  '\"' :: (s.map escapeStringChar).flatten ++ ['\"']

mutual

/-- Model of Python `json.dumps` with its default separators (`, ` and `: `).
Numeric values are serialized as their stored lexeme (Python would print the
`float`'s shortest repr; no claim compares those bytes). -/
def json_dumps : Json → List Char
| Json.null => "null".toList
| Json.bool true => "true".toList
| Json.bool false => "false".toList
| Json.num lex => lex
| Json.nan => "NaN".toList
| Json.inf false => "Infinity".toList
| Json.inf true => "-Infinity".toList
| Json.str s => dumpString s
| Json.arr xs => '[' :: dumpArr xs ++ [']']
| Json.obj kvs => '\x7b' :: dumpMembers kvs ++ ['\x7d']

/-- Serialize array elements. -/
def dumpArr : List Json → List Char
| [] => []
| [x] => json_dumps x
| x :: y :: rest => json_dumps x ++ ',' :: ' ' :: dumpArr (y :: rest)

/-- Serialize object members. -/
def dumpMembers : List (List Char × Json) → List Char
| [] => []
| [(k, v)] => dumpString k ++ ':' :: ' ' :: json_dumps v
| (k, v) :: p :: rest =>
  dumpString k ++ ':' :: ' ' :: json_dumps v ++ ',' :: ' ' :: dumpMembers (p :: rest)

end

/-- Python `str()` of a scalar cell value (the shapes BigQuery / pandas cells
take in this pipeline).  Numeric values print their stored lexeme. -/
def pyStr : Json → List Char
| Json.str s => s
| Json.num lex => lex
| Json.bool true => "True".toList
| Json.bool false => "False".toList
| Json.null => "None".toList
| Json.nan => "nan".toList
| Json.inf false => "inf".toList
| Json.inf true => "-inf".toList
| Json.arr xs => json_dumps (Json.arr xs)
| Json.obj kvs => json_dumps (Json.obj kvs)

/-- Python `str()` of an `Optional` (`None` prints as `None`). -/
def pyStrOpt : Option Json → List Char
| some j => pyStr j
| none => "None".toList

/-- Whether a numeric literal denotes zero (every mantissa digit is `0`). -/
def zeroLex (lex : List Char) : Bool :=
  (lex.takeWhile (fun c => !(c == 'e' || c == 'E'))).all
    (fun c => !c.isDigit || c == '0')

/-- Python truthiness (`if not data_content`). -/
def pyFalsy : Json → Bool
| Json.null => true
| Json.bool b => !b
| Json.num lex => zeroLex lex
| Json.nan => false
| Json.inf _ => false
| Json.str s => s.isEmpty
| Json.arr xs => xs.isEmpty
| Json.obj kvs => kvs.isEmpty

/-- Value of a digit run. -/
def digitsVal (ds : List Char) : Nat :=
  ds.foldl (fun a c => a * 10 + (c.toNat - '0'.toNat)) 0

/-- Strip leading and trailing whitespace (Python `float()` accepts it). -/
def pyTrim (s : List Char) : List Char :=
  ((s.dropWhile Char.isWhitespace).reverse.dropWhile Char.isWhitespace).reverse

/-- Optional exponent suffix of a `float()` literal.  The result pair
`(m, s)` denotes the exact decimal value `m / 10^s`. -/
def pyFloatExp (m : Int) (s : Nat) (r : List Char) : Option (Int × Nat) :=
  match r with
  | [] => some (m, s)
  | c :: r1 =>
    if c = 'e' ∨ c = 'E' then
      let p := match r1 with
        | '-' :: rr => (true, rr)
        | '+' :: rr => (false, rr)
        | rr => (false, rr)
      match takeDigits p.2 with
      | ([], _) => none
      | (eds, r3) =>
        if r3.isEmpty then
          if p.1 then some (m, s + digitsVal eds)
          else some (m * (10 : Int) ^ digitsVal eds, s)
        else none
    else none

/-- Unsigned body of a `float()` literal: digits, optional `.digits`,
optional exponent. -/
def pyFloatCore (s : List Char) : Option (Int × Nat) :=
  match takeDigits s with
  | (ip, r1) =>
    match r1 with
    | '.' :: r =>
      match takeDigits r with
      | (fp, r2) =>
        if ip.isEmpty && fp.isEmpty then none
        else pyFloatExp (Int.ofNat (digitsVal (ip ++ fp))) fp.length r2
    | _ =>
      if ip.isEmpty then none
      else pyFloatExp (Int.ofNat (digitsVal ip)) 0 r1

/-- Model of Python `float(x)` on the values a cell can hold, as an exact
decimal `(mantissa, scale)`; `none` models a raised `ValueError`/`TypeError`
(caught by the renderer's bare `except`).  Plain decimal literals with an
optional exponent are supported; `inf`/`nan` spellings are out of scope (no
claim exercises them). -/
def pyFloat? : Json → Option (Int × Nat)
| Json.str s =>
  (match pyTrim s with
   | '-' :: r => (pyFloatCore r).map (fun p => (-p.1, p.2))
   | '+' :: r => pyFloatCore r
   | r => pyFloatCore r)
| Json.num lex =>
  (match lex with
   | '-' :: r => (pyFloatCore r).map (fun p => (-p.1, p.2))
   | r => pyFloatCore r)
| Json.bool true => some (1, 0)
| Json.bool false => some (0, 0)
| _ => none

/-- Round-half-even division (the rounding CPython's `format` applies; the
model works on exact decimals, so binary-float artifacts on inputs with more
than two decimal places are out of scope — no claim exercises them). -/
def halfEvenDiv (n d : Nat) : Nat :=
  let q := n / d
  let r := n % d
  if 2 * r < d then q
  else if d < 2 * r then q + 1
  else if q % 2 = 0 then q else q + 1

/-- Decimal digits of `n`, most significant first. -/
def natDigitChars (n : Nat) : List Char := Nat.toDigits 10 n

/-- Insert a comma after every third character of a least-significant-first
digit list. -/
def chunkRev : List Char → List Char
| c1 :: c2 :: c3 :: c4 :: rest => c1 :: c2 :: c3 :: ',' :: chunkRev (c4 :: rest)
| l => l

/-- Thousands grouping of a natural number (`format(n, ',')`). -/
def groupThousands (n : Nat) : List Char :=
  (chunkRev (natDigitChars n).reverse).reverse

/-- Two-digit zero-padded rendering. -/
def padTwo (n : Nat) : List Char :=
  if n < 10 then '0' :: natDigitChars n else natDigitChars n

/-- Python `f"{x:,.2f}"` on the exact decimal `m / 10^s`: thousands grouped
with commas, exactly two decimals after a dot. -/
def formatCommaFixed2 (p : Int × Nat) : List Char :=
  let cents := halfEvenDiv (p.1.natAbs * 100) (10 ^ p.2)
  (if p.1 < 0 then ['-'] else []) ++
    groupThousands (cents / 100) ++ '.' :: padTwo (cents % 100)

/-- Left-pad a digit list with zeros to length `k`. -/
def padZeros (k : Nat) (ds : List Char) : List Char :=
  List.replicate (k - ds.length) '0' ++ ds

/-- Drop trailing zero decimals of an exact decimal. -/
def stripZeroScale : Int × Nat → Int × Nat
| (m, 0) => (m, 0)
| (m, Nat.succ s) => if m % 10 = 0 then stripZeroScale (m / 10, s) else (m, s + 1)
termination_by p => p.2

/-- Python `f"{x:,}"` for a float `x` holding the exact decimal `m / 10^s`:
grouped integer part, then the fractional digits (a float always shows at
least `.0`). -/
def formatCommaFloat (p : Int × Nat) : List Char :=
  let q := stripZeroScale p
  let n := q.1.natAbs
  (if q.1 < 0 then ['-'] else []) ++
    (if q.2 = 0 then groupThousands n ++ ['.', '0']
     else groupThousands (n / 10 ^ q.2) ++ '.' :: padZeros q.2 (natDigitChars (n % 10 ^ q.2)))

/-- Python `text.replace(a, b)` for single-character arguments. -/
def pyReplaceChar (t : List Char) (a b : Char) : List Char :=
  t.map (fun c => if c = a then b else c)

/-- The `.replace(",", "X").replace(".", ",").replace("X", ".")` chain from
app.py lines 237–239 (turns `1,234.50` into `1.234,50`). -/
def swapSeps (t : List Char) : List Char :=
  pyReplaceChar (pyReplaceChar (pyReplaceChar t ',' 'X') '.' ',') 'X' '.'

/-- Python `str.title()` (restricted to ASCII letters; display-only). -/
def pyTitleGo : Bool → List Char → List Char
| _, [] => []
| prevAlpha, c :: cs =>
  if c.isAlpha then
    (if prevAlpha then c.toLower else c.toUpper) :: pyTitleGo true cs
  else c :: pyTitleGo false cs

/-- Python `str.title()`. -/
def pyTitle (s : List Char) : List Char := pyTitleGo false s

/-! ## Keys, fixed strings and envelope constructors from app.py -/

def actionKey : List Char := "action".toList
def contentKey : List Char := "content".toList
def queryUsedKey : List Char := "query_used".toList
def displayFormatKey : List Char := "display_format".toList
def chartTypeKey : List Char := "chart_type".toList
def contextKey : List Char := "context".toList
def executeStr : List Char := "EXECUTE".toList
def clarifyStr : List Char := "CLARIFY".toList
def dataStr : List Char := "DATA".toList
def errorStr : List Char := "ERROR".toList
def dataResultStr : List Char := "DATA_RESULT".toList
def numberStr : List Char := "number".toList
def barStr : List Char := "bar".toList
def lineStr : List Char := "line".toList
def pieStr : List Char := "pie".toList
def scatterStr : List Char := "scatter".toList
def percentageStr : List Char := "percentage".toList
def currencyBrlStr : List Char := "currency_brl".toList
def currencyUsdStr : List Char := "currency_usd".toList
def currencyEurStr : List Char := "currency_eur".toList
def roleUser : List Char := "user".toList
def roleAssistant : List Char := "assistant".toList
def roleSystem : List Char := "system".toList

/-- `f"Ocorreu um erro técnico: {e}"` (app.py line 180), head part. -/
def techErrHead : List Char := "Ocorreu um erro técnico: ".toList

/-- `f"Erro ao decodificar JSON do Llama: '{response_text}'"` (line 178). -/
def decodeErrText (t : List Char) : List Char :=
  "Erro ao decodificar JSON do Llama: ".toList ++ squote :: t ++ [squote]

/-- `str(e)` of the `AttributeError` raised by `.get` on a non-dict
(abstracted: Python's text also names the value's type). -/
def attrGetErrText : List Char :=
  "object has no attribute ".toList ++ squote :: "get".toList ++ [squote]

/-- `str(e)` of the error `client_bq.query` raises when handed a non-string
query (abstracted). -/
def queryArgErrText : List Char := "query argument must be a string".toList

def semResultadosWarn : List Char :=
  "A consulta rodou, mas não retornou resultados.".toList
def exibindoMsg : List Char := "[Exibindo dados e gráficos]".toList
def erroHead : List Char := "Ocorreu um erro: ".toList
def graficoHead : List Char := "O gráfico foi gerado. Dados resultantes: ".toList
def metricHeaderStr : List Char := "#### Métrica Principal".toList
def dadosHeaderStr : List Char := "#### Dados".toList
def vizHeaderStr : List Char := "#### Visualização".toList
def trendInfoStr : List Char := "📈 Tendência Temporal".toList
def distInfoStr : List Char := "🍰 Distribuição".toList
def scatterInfoStr : List Char := "💠 Dispersão".toList
def dfVarName : List Char := "df".toList
def dfConstructErrStr : List Char := "DataFrame constructor not properly called".toList

/-- An `ERROR` envelope (`action`/`content` dict literal). -/
def errorEnvelope (msg : List Char) : Json :=
  Json.obj [(actionKey, Json.str errorStr), (contentKey, Json.str msg)]

/-- The `except Exception` envelope of app.py line 180. -/
def techErrorEnvelope (e : List Char) : Json := errorEnvelope (techErrHead ++ e)

/-- The `except json.JSONDecodeError` envelope of app.py line 178. -/
def decodeErrorEnvelope (t : List Char) : Json := errorEnvelope (decodeErrText t)

/-- The `DATA` envelope built on app.py lines 167–173 after a successful
query. -/
def dataEnvelope (content : Json) (sql_query : List Char)
    (display_format chart_type : Json) : Json :=
  Json.obj [(actionKey, Json.str dataStr),
            (contentKey, content),
            (queryUsedKey, Json.str sql_query),
            (displayFormatKey, display_format),
            (chartTypeKey, chart_type)]

/-! ## Data model: messages, call log, oracles, DataFrames -/

/-- One chat message (`~role~`/`~content~` dict).  The UI log can hold
non-string contents (a CLARIFY envelope's `content` is stored as-is);
the API history always holds strings. -/
structure Msg where
  role : List Char
  content : Json

/-- Record of every invocation of the two external clients: the full message
payload of each Cerebras call and the SQL text of each BigQuery call. -/
structure CallLog where
  llmCalls : List (List Msg)
  bqCalls : List (List Char)

/-- The Cerebras chat-completion client as an oracle: message payload to
response text, or a raised exception's `str()`. -/
abbrev LlmOracle := List Msg → Except (List Char) (List Char)

/-- A tabular query result (`query_job.to_dataframe()`): named columns and
rows of cells. -/
structure DataFrame where
  cols : List (List Char)
  rows : List (List Json)

/-- The BigQuery client as an oracle: SQL text to a DataFrame, or a raised
exception's `str()`. -/
abbrev BqOracle := List Char → Except (List Char) DataFrame

/-- pandas `df.empty`: no rows or no columns. -/
def dfEmpty (df : DataFrame) : Bool := df.rows.isEmpty || df.cols.isEmpty

/-- `df.astype(str)`: every cell becomes its `str()` rendering. -/
def astype_str (df : DataFrame) : DataFrame :=
  ⟨df.cols, df.rows.map (fun r => r.map (fun c => Json.str (pyStr c)))⟩

/-- `df.to_dict(~records~)`: one dict per row, keyed by column name. -/
def to_dict_records (df : DataFrame) : Json :=
  Json.arr (df.rows.map (fun r => Json.obj (df.cols.zip r)))

/-- Python `dict` lookup on an object's pairs (keys are unique, see
`updatePairs`). -/
def objGet : List (List Char × Json) → List Char → Option Json
| [], _ => none
| (k2, v) :: rest, k => if k2 = k then some v else objGet rest k

/-- `d.get(k)` on a JSON value known to be an object (every call site in the
model has established the object shape, mirroring where the code would have
raised `AttributeError` otherwise). -/
def jsonGet : Json → List Char → Option Json
| Json.obj kvs, k => objGet kvs k
| _, _ => none

/-- `d.get(k, default)`. -/
def jsonGetD (j : Json) (k : List Char) (d : Json) : Json := (jsonGet j k).getD d

/-- Python `==` between a JSON value and a string literal. -/
def jStrEq (j : Json) (s : List Char) : Bool :=
  match j with
  | Json.str t => decide (t = s)
  | _ => false

/-- Python `==` between an optional JSON value and a string literal. -/
def isStrVal (j : Option Json) (s : List Char) : Bool :=
  match j with
  | some v => jStrEq v s
  | none => false

/-- The fixed system prompt (app.py lines 84–108).  Its text is opaque to
every claim — it is only ever passed through to the model — so the model
keeps a marker string rather than transcribing the whole prompt. -/
def SYSTEM_INSTRUCTION : List Char := "SYSTEM_INSTRUCTION".toList

def systemMsg : Msg := ⟨roleSystem, Json.str SYSTEM_INSTRUCTION⟩

def mkUserMsg (p : List Char) : Msg := ⟨roleUser, Json.str p⟩

/-- app.py lines 129–135: system instruction, then the prior history, then
the current question. -/
def buildMessages (user_prompt : List Char) (history_list : List Msg) : List Msg :=
  systemMsg :: history_list ++ [mkUserMsg user_prompt]

/-! ## get_assistant_response (app.py lines 123–180) -/

/-- app.py lines 123–180: build the context, call Cerebras (recorded in the
log), extract and parse the JSON envelope, and dispatch `EXECUTE` to BigQuery
(also recorded).  Every failure is caught by the function's `try`/`except`
and becomes an `ERROR` envelope, so the model is total.  Note there is no
cache of any kind: the Cerebras call is issued unconditionally on entry. -/
def get_assistant_response (llm : LlmOracle) (bq : BqOracle) (user_prompt : List Char)
    (history_list : List Msg) (log : CallLog) : Json × CallLog :=
  let messages := buildMessages user_prompt history_list
  let log1 : CallLog := ⟨log.llmCalls ++ [messages], log.bqCalls⟩
  match llm messages with
  | Except.error e => (techErrorEnvelope e, log1)
  | Except.ok response_text =>
    match json_loads (clean_json_from_string response_text) with
    | none => (decodeErrorEnvelope response_text, log1)
    | some response_json =>
      match response_json with
      | Json.obj kvs =>
        if isStrVal (objGet kvs actionKey) executeStr then
          let display_format := (objGet kvs displayFormatKey).getD (Json.str numberStr)
          let chart_type := (objGet kvs chartTypeKey).getD (Json.str barStr)
          match objGet kvs contentKey with
          | some (Json.str sql_query) =>
            let log2 : CallLog := ⟨log1.llmCalls, log1.bqCalls ++ [sql_query]⟩
            match bq sql_query with
            | Except.error e => (techErrorEnvelope e, log2)
            | Except.ok df_results =>
              let df2 := if dfEmpty df_results then df_results else astype_str df_results
              (dataEnvelope (to_dict_records df2) sql_query display_format chart_type, log2)
          | _ => (techErrorEnvelope queryArgErrText, log1)
        else (Json.obj kvs, log1)
      | _ => (techErrorEnvelope attrGetErrText, log1)

/-! ## The renderer and the per-turn UI handler (app.py lines 182–356) -/

/-- What the turn renders into the page, in order. -/
inductive DisplayItem where
| chatUser : List Char → DisplayItem
| markdown : Json → DisplayItem
| metric : List Char → List Char → DisplayItem
| dataframe : DataFrame → DisplayItem
| chart : List Char → DisplayItem
| infoNote : List Char → DisplayItem
| warnNote : List Char → DisplayItem
| errNote : List Char → DisplayItem
| codeSql : Json → DisplayItem

/-- A Python exception escaping `process_and_display_prompt` (which has no
`try`/`except` of its own, so it propagates to the Streamlit script runner). -/
inductive PyExc where
| keyError : List Char → PyExc
| unboundLocal : List Char → PyExc
| valueError : List Char → PyExc
| indexError : PyExc
deriving DecidableEq

/-- The two session-state lists (`st.session_state.messages`,
`st.session_state.history_for_api`). -/
structure SessionState where
  messages : List Msg
  history_for_api : List Msg

/-- Everything observable about one turn: the session state after it, the
call log, the rendered items, and the exception, if one escaped.  Streamlit
session-state mutations made before the raise persist, so the state fields
are meaningful in both cases. -/
structure TurnResult where
  messages : List Msg
  history_for_api : List Msg
  log : CallLog
  displayed : List DisplayItem
  exc : Option PyExc

/-- app.py lines 216–220: currency symbol from the display format (note the
trailing spaces in the source literals). -/
def currencySymbol (display_format : Json) : List Char :=
  if jStrEq display_format currencyBrlStr then "R$ ".toList
  else if jStrEq display_format currencyUsdStr then "$ ".toList
  else if jStrEq display_format currencyEurStr then "€ ".toList
  else []

/-- app.py line 223, the KPI shape test:
`df.shape[0] == 1 and (df.shape[1] == 1 or df.shape[1] == 2)`. -/
def rendersAsKpi (df : DataFrame) : Bool :=
  df.rows.length == 1 && (df.cols.length == 1 || df.cols.length == 2)

def isCurrencyFormat (display_format : Json) : Bool :=
  jStrEq display_format currencyBrlStr || jStrEq display_format currencyUsdStr ||
    jStrEq display_format currencyEurStr

/-- app.py lines 233–244: format the KPI value.  `float()` failure falls back
to `str(kpi_value)` via the bare `except`. -/
def formatKpiValue (display_format : Json) (currency_symbol : List Char)
    (kpi_value : Json) : List Char :=
  match pyFloat? kpi_value with
  | some d =>
    if jStrEq display_format percentageStr then
      swapSeps (formatCommaFixed2 d ++ ['%'])
    else if isCurrencyFormat display_format then
      currency_symbol ++ swapSeps (formatCommaFixed2 d)
    else formatCommaFloat d
  | none => pyStr kpi_value

/-- app.py lines 224–246: the KPI branch of the renderer (only entered when
`rendersAsKpi` holds, so the row/cell accesses are in range; out-of-range
defaults are never reached there). -/
def kpi_section (df : DataFrame) (display_format : Json)
    (currency_symbol : List Char) : List DisplayItem :=
  let row0 := df.rows.headD []
  let col0 := df.cols.headD []
  DisplayItem.markdown (Json.str metricHeaderStr) ::
    (if df.cols.length == 2 then
      [DisplayItem.markdown (Json.str ("**".toList ++ pyTitle (pyReplaceChar col0 '_' ' ')
         ++ ":** ".toList ++ pyStr ((row0.get? 0).getD Json.null))),
       DisplayItem.metric col0
         (formatKpiValue display_format currency_symbol ((row0.get? 1).getD Json.null))]
    else
      [DisplayItem.metric (pyTitle (pyReplaceChar col0 '_' ' '))
         (formatKpiValue display_format currency_symbol ((row0.get? 0).getD Json.null))])

/-- `pd.to_numeric(x, errors=~coerce~)` on one cell: parseable values become
floats (kept as a canonical lexeme), everything else `NaN`. -/
def toNumericCell (c : Json) : Json :=
  match pyFloat? c with
  | some p =>
    let q := stripZeroScale p
    Json.num ((if q.1 < 0 then ['-'] else []) ++
      (if q.2 = 0 then natDigitChars q.1.natAbs ++ ['.', '0']
       else natDigitChars (q.1.natAbs / 10 ^ q.2) ++
         '.' :: padZeros q.2 (natDigitChars (q.1.natAbs % 10 ^ q.2))))
  | none => Json.nan

/-- `df[y_col] = pd.to_numeric(df[y_col], errors=~coerce~)` (line 262). -/
def dfSetColNumeric (df : DataFrame) (col : List Char) : DataFrame :=
  match df.cols.findIdx? (· = col) with
  | some i => ⟨df.cols, df.rows.map (fun r => r.set i (toNumericCell ((r.get? i).getD Json.null)))⟩
  | none => df

/-- app.py lines 249–325: the table + chart branch.  `df.columns[0]` raises
`IndexError` on a column-less frame; the echarts option dictionaries are pure
display configuration, represented by the chart item.  The mutated frame
(`y_col` coerced to numeric) is returned because line 335 serializes it. -/
def chart_section (df : DataFrame) (response_data : Json) :
    Except PyExc (List DisplayItem × DataFrame) :=
  if df.cols.isEmpty then Except.error PyExc.indexError
  else
    let y_col := (df.cols.get? (if 1 < df.cols.length then 1 else 0)).getD []
    let df2 := dfSetColNumeric df y_col
    let chart_type := jsonGetD response_data chartTypeKey (Json.str barStr)
    let base := [DisplayItem.markdown (Json.str dadosHeaderStr), DisplayItem.dataframe df,
                 DisplayItem.markdown (Json.str vizHeaderStr)]
    let chartDisp :=
      if jStrEq chart_type lineStr then [DisplayItem.infoNote trendInfoStr, DisplayItem.chart lineStr]
      else if jStrEq chart_type pieStr then [DisplayItem.infoNote distInfoStr, DisplayItem.chart pieStr]
      else if jStrEq chart_type scatterStr then
        [DisplayItem.infoNote scatterInfoStr, DisplayItem.chart scatterStr]
      else [DisplayItem.chart barStr]
    Except.ok (base ++ chartDisp, df2)

/-- `df.head(30)`. -/
def df_head (n : Nat) (df : DataFrame) : DataFrame := ⟨df.cols, df.rows.take n⟩

def csvNeedsQuote (s : List Char) : Bool :=
  s.any (fun c => c == ',' || c == '\"' || c == '\n' || c == '\r')

/-- CSV minimal quoting of one field. -/
def csvField (s : List Char) : List Char :=
  if csvNeedsQuote s then
    '\"' :: (s.map (fun c => if c = '\"' then ['\"', '\"'] else [c])).flatten ++ ['\"']
  else s

/-- One CSV cell; pandas writes `NaN` as an empty field. -/
def csvCell : Json → List Char
| Json.nan => []
| Json.str s => csvField s
| c => csvField (pyStr c)

def joinComma : List (List Char) → List Char
| [] => []
| [x] => x
| x :: y :: rest => x ++ ',' :: joinComma (y :: rest)

/-- `df.to_csv(index=False)`: header line then one line per row. -/
def df_to_csv (df : DataFrame) : List Char :=
  joinComma (df.cols.map csvField) ++ '\n' ::
    (df.rows.map (fun r => joinComma (r.map csvCell) ++ ['\n'])).flatten

/-- The hidden `msg_sistema` dict of app.py lines 338–341. -/
def dataResultJson (csv : List Char) : Json :=
  Json.obj [(actionKey, Json.str dataResultStr), (contextKey, Json.str (graficoHead ++ csv))]

/-- Model of `pd.DataFrame(records)` for a list of uniform record objects
(the shape `to_dict` with records produces): columns from the first record's
keys, each row realigned by key (a missing key yields NaN).  Other input
shapes — only reachable when the LLM itself emits `action: DATA` — are
modelled as a pandas construction error. -/
def pdDataFrame : Json → Except PyExc DataFrame
| Json.arr records =>
  (match records with
   | [] => Except.ok ⟨[], []⟩
   | r0 :: _ =>
     match r0 with
     | Json.obj kvs0 =>
       let cols := kvs0.map Prod.fst
       Except.ok ⟨cols, records.map (fun r => cols.map (fun k => (jsonGet r k).getD Json.nan))⟩
     | _ => Except.error (PyExc.valueError dfConstructErrStr))
| _ => Except.error (PyExc.valueError dfConstructErrStr)

/-- app.py lines 353–356: the unconditional final history appends — the user
question and the serialized envelope. -/
def finishTurn (prompt : List Char) (response_data : Json) (messages history : List Msg)
    (log : CallLog) (disp : List DisplayItem) : TurnResult :=
  ⟨messages,
   history ++ [⟨roleUser, Json.str prompt⟩, ⟨roleAssistant, Json.str (json_dumps response_data)⟩],
   log, disp, none⟩

/-- app.py lines 327–346 followed by 353–356 — the tail shared by both DATA
render branches: the SQL expander (`response_data["query_used"]` may raise
`KeyError`), the `[Exibindo dados e gráficos]` message append, the hidden
`DATA_RESULT` history append when the frame is non-empty, then the final
history appends. -/
def data_tail (prompt : List Char) (response_data : Json) (df_final : DataFrame)
    (messages1 history0 : List Msg) (log1 : CallLog) (disp : List DisplayItem) : TurnResult :=
  match jsonGet response_data queryUsedKey with
  | none => ⟨messages1, history0, log1, disp, some (PyExc.keyError queryUsedKey)⟩
  | some qu =>
    let disp2 := disp ++ [DisplayItem.codeSql qu]
    let messages2 := messages1 ++ [⟨roleAssistant, Json.str exibindoMsg⟩]
    let history1 :=
      if dfEmpty df_final then history0
      else history0 ++
        [⟨roleAssistant, Json.str (json_dumps (dataResultJson (df_to_csv (df_head 30 df_final))))⟩]
    finishTurn prompt response_data messages2 history1 log1 disp2

/-- app.py lines 182–356: one full user turn.  The user message is appended
to the UI log, `get_assistant_response` is invoked (there is no caching), and
the envelope's action is dispatched to the CLARIFY, DATA or error display
paths.  The function itself has no exception handler, so the modelled raises
(`KeyError` on missing envelope fields, `UnboundLocalError` on line 333 when
the DATA content is empty because `df` is only assigned in the non-empty
branch, pandas construction errors, `IndexError` on a column-less frame)
escape with the session state as mutated so far and no further appends.
Line 209's `"Sem dados encontrados."` assignment is dead (overwritten on
line 330 before any use) and lines 213–214 discard the result of
`pd.to_numeric`, so neither appears in the model. -/
def process_and_display_prompt (llm : LlmOracle) (bq : BqOracle) (prompt : List Char)
    (s : SessionState) (log0 : CallLog) : TurnResult :=
  let messages1 := s.messages ++ [⟨roleUser, Json.str prompt⟩]
  let disp0 := [DisplayItem.chatUser prompt]
  match get_assistant_response llm bq prompt s.history_for_api log0 with
  | (response_data, log1) =>
    if isStrVal (jsonGet response_data actionKey) clarifyStr then
      match jsonGet response_data contentKey with
      | none => ⟨messages1, s.history_for_api, log1, disp0, some (PyExc.keyError contentKey)⟩
      | some mc =>
        finishTurn prompt response_data (messages1 ++ [⟨roleAssistant, mc⟩]) s.history_for_api
          log1 (disp0 ++ [DisplayItem.markdown mc])
    else if isStrVal (jsonGet response_data actionKey) dataStr then
      match jsonGet response_data contentKey with
      | none => ⟨messages1, s.history_for_api, log1, disp0, some (PyExc.keyError contentKey)⟩
      | some data_content =>
        let display_format := jsonGetD response_data displayFormatKey (Json.str numberStr)
        if pyFalsy data_content then
          match jsonGet response_data queryUsedKey with
          | none => ⟨messages1, s.history_for_api, log1,
                     disp0 ++ [DisplayItem.warnNote semResultadosWarn],
                     some (PyExc.keyError queryUsedKey)⟩
          | some qu =>
            ⟨messages1 ++ [⟨roleAssistant, Json.str exibindoMsg⟩], s.history_for_api, log1,
             disp0 ++ [DisplayItem.warnNote semResultadosWarn, DisplayItem.codeSql qu],
             some (PyExc.unboundLocal dfVarName)⟩
        else
          match pdDataFrame data_content with
          | Except.error e => ⟨messages1, s.history_for_api, log1, disp0, some e⟩
          | Except.ok df =>
            let currency_symbol := currencySymbol display_format
            if rendersAsKpi df then
              data_tail prompt response_data df messages1 s.history_for_api log1
                (disp0 ++ kpi_section df display_format currency_symbol)
            else
              match chart_section df response_data with
              | Except.error e => ⟨messages1, s.history_for_api, log1, disp0, some e⟩
              | Except.ok (dispC, df2) =>
                data_tail prompt response_data df2 messages1 s.history_for_api log1 (disp0 ++ dispC)
    else
      let message_content := erroHead ++ pyStrOpt (jsonGet response_data contentKey)
      finishTurn prompt response_data (messages1 ++ [⟨roleAssistant, Json.str message_content⟩])
        s.history_for_api log1 (disp0 ++ [DisplayItem.errNote message_content])

/-- app.py lines 425–428: the clear-conversation button handler sets both
session lists to `[]` in the same handler invocation (`st.rerun` only
re-renders). -/
def btn_clear_click : SessionState → SessionState := fun _ => ⟨[], []⟩

/-! ## Concrete oracles used in the closed-form theorems -/

/-- A deterministic model client returning a fixed completion text. -/
def constLlm (t : List Char) : LlmOracle := fun _ => Except.ok t

/-- A warehouse client returning a fixed result for every query. -/
def constBq (df : DataFrame) : BqOracle := fun _ => Except.ok df

/-- A warehouse client raising on every query. -/
def failBq (e : List Char) : BqOracle := fun _ => Except.error e

/-- A completion containing only a CLARIFY envelope. -/
def clarifyText : List Char :=
  "\x7b\"action\": \"CLARIFY\", \"content\": \"oi\"\x7d".toList

/-- A completion containing only an EXECUTE envelope. -/
def execText : List Char :=
  "\x7b\"action\": \"EXECUTE\", \"content\": \"SELECT 1\"\x7d".toList

/-! ## Facts about the first-brace / last-brace extraction -/

theorem firstIdx_eq_none (t : List Char) (c : Char) (h : c ∉ t) : firstIdx t c = none := by
  induction t with
  | nil => rfl
  | cons x xs ih =>
    simp only [List.mem_cons, not_or] at h
    simp only [firstIdx]
    rw [if_neg (fun hx => h.1 hx.symm), ih h.2]

theorem lastIdx_eq_none (t : List Char) (c : Char) (h : c ∉ t) : lastIdx t c = none := by
  induction t with
  | nil => rfl
  | cons x xs ih =>
    simp only [List.mem_cons, not_or] at h
    simp only [lastIdx, ih h.2]
    exact if_neg (fun hx => h.1 hx.symm)

/-- When either brace is absent, the extraction helper returns its input
unchanged (the `find`/`rfind` = -1 fallback of app.py line 121). -/
theorem clean_eq_self (t : List Char) (h : '\x7b' ∉ t ∨ '\x7d' ∉ t) :
    clean_json_from_string t = t := by
  rcases h with h | h
  · unfold clean_json_from_string
    rw [firstIdx_eq_none t _ h]
  · unfold clean_json_from_string
    rw [lastIdx_eq_none t _ h]
    cases firstIdx t '\x7b' <;> rfl

theorem firstIdx_append_cons (p r : List Char) (c : Char) (h : c ∉ p) :
    firstIdx (p ++ c :: r) c = some p.length := by
  induction p with
  | nil => simp [firstIdx]
  | cons x xs ih =>
    simp only [List.mem_cons, not_or] at h
    simp only [List.cons_append, firstIdx, List.append_eq]
    rw [if_neg (fun hx => h.1 hx.symm), ih h.2]
    rfl

theorem lastIdx_append_right (t q : List Char) (c : Char) (h : c ∉ q) :
    lastIdx (t ++ q) c = lastIdx t c := by
  induction t with
  | nil => simpa using lastIdx_eq_none q c h
  | cons x xs ih =>
    simp only [List.cons_append, lastIdx, List.append_eq]
    rw [ih]

theorem lastIdx_getLast (t : List Char) (c : Char) (h : t.getLast? = some c) :
    lastIdx t c = some (t.length - 1) := by
  induction t with
  | nil => simp at h
  | cons x xs ih =>
    cases xs with
    | nil =>
      simp only [List.getLast?_singleton, Option.some.injEq] at h
      simp [lastIdx, h]
    | cons y ys =>
      rw [List.getLast?_cons_cons] at h
      have hx := ih h
      have hstep : lastIdx (x :: y :: ys) c =
          match lastIdx (y :: ys) c with
          | some i => some (i + 1)
          | none => if x = c then some 0 else none := rfl
      rw [hstep, hx]
      simp

/-- C5 (amended): when the prose before the JSON object contains no opening
brace and the prose after it contains no closing brace, the first-`\x7b` /
last-`\x7d` extraction returns exactly the object substring, so parsing the
extraction equals parsing the object directly.  (The unamended claim, which
allows arbitrary braces in the prose, is refuted by `C5_counterexample`.) -/
theorem C5_extract_exact (p j q : List Char)
    (hp : '\x7b' ∉ p) (hq : '\x7d' ∉ q)
    (hhead : j.head? = some '\x7b') (hlast : j.getLast? = some '\x7d')
    (kvs : List (List Char × Json)) (hobj : json_loads j = some (Json.obj kvs)) :
    clean_json_from_string (p ++ j ++ q) = j
    ∧ json_loads (clean_json_from_string (p ++ j ++ q)) = json_loads j := by
  clear hobj
  obtain ⟨j', rfl⟩ : ∃ j', j = '\x7b' :: j' := by
    cases j with
    | nil => simp at hhead
    | cons a as =>
      simp only [List.head?_cons, Option.some.injEq] at hhead
      exact ⟨as, by rw [hhead]⟩
  have hfi : firstIdx (p ++ '\x7b' :: j' ++ q) '\x7b' = some p.length := by
    rw [List.append_assoc, List.cons_append]
    exact firstIdx_append_cons p (j' ++ q) '\x7b' hp
  have hla : lastIdx (p ++ '\x7b' :: j' ++ q) '\x7d' = some ((p ++ '\x7b' :: j').length - 1) := by
    rw [lastIdx_append_right _ q _ hq]
    apply lastIdx_getLast
    rw [List.getLast?_append_of_ne_nil p (by simp)]
    exact hlast
  have hmain : clean_json_from_string (p ++ '\x7b' :: j' ++ q) = '\x7b' :: j' := by
    unfold clean_json_from_string
    rw [hfi, hla]
    have harith : (p ++ '\x7b' :: j').length - 1 + 1 - p.length = ('\x7b' :: j').length := by
      simp only [List.length_append, List.length_cons]
      omega
    simp only [harith]
    rw [List.append_assoc, List.drop_left, List.take_left]
  exact ⟨hmain, by rw [hmain]⟩

/-- C5 (amended) witness: prose around `\x7b"a": 1\x7d` with no stray braces. -/
theorem C5_extract_exact_witness :
    clean_json_from_string ("prose ".toList ++ "\x7b\"a\": 1\x7d".toList ++ " after".toList)
      = "\x7b\"a\": 1\x7d".toList
    ∧ json_loads (clean_json_from_string
        ("prose ".toList ++ "\x7b\"a\": 1\x7d".toList ++ " after".toList))
      = json_loads ("\x7b\"a\": 1\x7d".toList) :=
  C5_extract_exact "prose ".toList "\x7b\"a\": 1\x7d".toList " after".toList
    (by decide) (by decide) (by decide) (by decide)
    [("a".toList, Json.num "1".toList)] rfl

/-- The raw text of the C5 counterexample: one well-formed JSON object
followed by prose that contains a closing brace. -/
def c5text : List Char := "\x7b\"a\": 1\x7d \x7d".toList

/-- The JSON object embedded in `c5text`. -/
def c5obj : List Char := "\x7b\"a\": 1\x7d".toList

/-- C5 counterexample: with brace-bearing prose after the object, the
extraction grabs up to the *prose's* closing brace, the candidate is not
valid JSON, and parsing it is *not* equivalent to parsing the object
directly — refuting the claim's "including prose that itself contains brace
characters". -/
theorem C5_counterexample :
    clean_json_from_string c5text = c5text
    ∧ json_loads c5text = none
    ∧ json_loads c5obj = some (Json.obj [("a".toList, Json.num "1".toList)])
    ∧ json_loads (clean_json_from_string c5text) ≠ json_loads c5obj := by
  refine ⟨rfl, rfl, rfl, ?_⟩
  intro hcontra
  exact Option.noConfusion ((rfl : json_loads (clean_json_from_string c5text) = none) ▸ hcontra)

/-! ## The scanner only consumes input: suffix lemmas for the parser -/

theorem suffix_cons_trans {r cs : List Char} (h : r <:+ cs) (c : Char) : r <:+ c :: cs :=
  h.trans (List.suffix_cons c cs)

theorem skipWs_suffix (cs : List Char) : skipWs cs <:+ cs := by
  induction cs with
  | nil => exact List.suffix_refl _
  | cons c cs ih =>
    simp only [skipWs]
    by_cases h : isJsonWs c = true
    · rw [if_pos h]; exact suffix_cons_trans ih c
    · rw [if_neg h]

theorem skipWs_cons_suffix {cs r : List Char} {c : Char} (h : skipWs cs = c :: r) :
    r <:+ cs :=
  (List.suffix_cons c r).trans (h ▸ skipWs_suffix cs)

theorem skipWs_cons_mem {cs r : List Char} {c : Char} (h : skipWs cs = c :: r) :
    c ∈ cs :=
  (h ▸ skipWs_suffix cs).subset (List.mem_cons_self c r)

theorem takeDigits_suffix (cs : List Char) : (takeDigits cs).2 <:+ cs := by
  induction cs with
  | nil => exact List.suffix_refl _
  | cons c cs ih =>
    simp only [takeDigits]
    by_cases h : c.isDigit = true
    · rw [if_pos h]
      cases htd : takeDigits cs with
      | mk ds r =>
        rw [htd] at ih
        simpa using suffix_cons_trans ih c
    · rw [if_neg h]

theorem lexIntPart_suffix {cs ds r : List Char} (h : lexIntPart cs = some (ds, r)) :
    r <:+ cs := by
  cases cs with
  | nil => simp [lexIntPart] at h
  | cons c cs =>
    simp only [lexIntPart] at h
    by_cases h0 : c = '0'
    · rw [if_pos h0] at h
      cases h
      exact List.suffix_cons _ _
    · rw [if_neg h0] at h
      by_cases hd : c.isDigit = true
      · rw [if_pos hd] at h
        cases htd : takeDigits cs with
        | mk ds2 r2 =>
          rw [htd] at h
          cases h
          have := takeDigits_suffix cs
          rw [htd] at this
          exact suffix_cons_trans this c
      · rw [if_neg hd] at h
        cases h

theorem lexFrac_suffix (cs : List Char) : (lexFrac cs).2 <:+ cs := by
  cases cs with
  | nil => exact List.suffix_refl _
  | cons c cs =>
    simp only [lexFrac]
    by_cases h : c = '.'
    · rw [if_pos h]
      cases htd : takeDigits cs with
      | mk ds r =>
        cases ds with
        | nil => exact List.suffix_refl _
        | cons d ds =>
          have := takeDigits_suffix cs
          rw [htd] at this
          simpa using suffix_cons_trans this c
    · rw [if_neg h]

theorem lexExp_suffix (cs : List Char) : (lexExp cs).2 <:+ cs := by
  cases cs with
  | nil => exact List.suffix_refl _
  | cons c cs =>
    simp only [lexExp]
    by_cases h : c = 'e' ∨ c = 'E'
    · rw [if_pos h]
      cases cs with
      | nil => exact List.suffix_refl _
      | cons s cs2 =>
        dsimp only
        by_cases hs : s = '+' ∨ s = '-'
        · rw [if_pos hs]
          cases htd : takeDigits cs2 with
          | mk ds r =>
            cases ds with
            | nil => exact List.suffix_refl _
            | cons d ds =>
              have := takeDigits_suffix cs2
              rw [htd] at this
              simpa using suffix_cons_trans (suffix_cons_trans this s) c
        · rw [if_neg hs]
          cases htd : takeDigits (s :: cs2) with
          | mk ds r =>
            cases ds with
            | nil => exact List.suffix_refl _
            | cons d ds =>
              have := takeDigits_suffix (s :: cs2)
              rw [htd] at this
              simpa using suffix_cons_trans this c
    · rw [if_neg h]

theorem lexNumber_suffix {cs lex r : List Char} (h : lexNumber cs = some (lex, r)) :
    r <:+ cs := by
  cases cs with
  | nil => simp [lexNumber] at h
  | cons c cs1 =>
    simp only [lexNumber] at h
    by_cases hm : c = '-'
    · rw [if_pos hm] at h
      cases hip : lexIntPart cs1 with
      | none => rw [hip] at h; cases h
      | some p =>
        cases p with
        | mk ip r1 =>
          rw [hip] at h
          dsimp only at h
          cases hfr : lexFrac r1 with
          | mk fp r2 =>
            rw [hfr] at h
            dsimp only at h
            cases hex : lexExp r2 with
            | mk ep r3 =>
              rw [hex] at h
              dsimp only at h
              have h1 : r1 <:+ cs1 := lexIntPart_suffix hip
              have h2 : r2 <:+ r1 := by have := lexFrac_suffix r1; rw [hfr] at this; exact this
              have h3 : r3 <:+ r2 := by have := lexExp_suffix r2; rw [hex] at this; exact this
              cases h
              exact suffix_cons_trans ((h3.trans h2).trans h1) c
    · rw [if_neg hm] at h
      cases hip : lexIntPart (c :: cs1) with
      | none => rw [hip] at h; cases h
      | some p =>
        cases p with
        | mk ip r1 =>
          rw [hip] at h
          dsimp only at h
          cases hfr : lexFrac r1 with
          | mk fp r2 =>
            rw [hfr] at h
            dsimp only at h
            cases hex : lexExp r2 with
            | mk ep r3 =>
              rw [hex] at h
              dsimp only at h
              have h1 : r1 <:+ c :: cs1 := lexIntPart_suffix hip
              have h2 : r2 <:+ r1 := by have := lexFrac_suffix r1; rw [hfr] at this; exact this
              have h3 : r3 <:+ r2 := by have := lexExp_suffix r2; rw [hex] at this; exact this
              cases h
              exact (h3.trans h2).trans h1

theorem parseStringBody_suffix : ∀ cs s r, parseStringBody cs = some (s, r) → r <:+ cs := by
  intro cs
  induction cs using parseStringBody.induct
  all_goals intro s r h
  all_goals rw [parseStringBody.eq_def] at h
  all_goals simp [*] at h
  all_goals try obtain ⟨h1, rfl⟩ := h
  all_goals try (repeat apply suffix_cons_trans)
  all_goals first
    | exact List.suffix_refl _
    | solve_by_elim

theorem expectChars_suffix : ∀ (es cs r : List Char), expectChars es cs = some r → r <:+ cs := by
  intro es
  induction es with
  | nil =>
    intro cs r h
    cases h
    exact List.suffix_refl _
  | cons e es ih =>
    intro cs r h
    cases cs with
    | nil => cases h
    | cons c cs =>
      simp only [expectChars] at h
      by_cases hc : c = e
      · rw [if_pos hc] at h
        exact suffix_cons_trans (ih cs r h) c
      · rw [if_neg hc] at h
        cases h

set_option maxHeartbeats 2000000 in
/-- The scanner functions only ever consume input: the remainder each one
returns is a suffix of what it was given (joint induction on the fuel). -/
theorem parser_suffix : ∀ fuel : Nat,
    (∀ cs v r, parseValue fuel cs = some (v, r) → r <:+ cs)
    ∧ (∀ cs v r, parseObjBody fuel cs = some (v, r) → r <:+ cs)
    ∧ (∀ cs kv r, parsePair fuel cs = some (kv, r) → r <:+ cs)
    ∧ (∀ acc cs v r, parseMembersRest fuel acc cs = some (v, r) → r <:+ cs)
    ∧ (∀ cs v r, parseArrBody fuel cs = some (v, r) → r <:+ cs)
    ∧ (∀ acc cs v r, parseElemsRest fuel acc cs = some (v, r) → r <:+ cs) := by
  intro fuel
  induction fuel with
  | zero =>
    refine ⟨fun cs v r h => ?_, fun cs v r h => ?_, fun cs kv r h => ?_,
            fun acc cs v r h => ?_, fun cs v r h => ?_, fun acc cs v r h => ?_⟩
    all_goals cases h
  | succ fuel ih =>
    obtain ⟨ihV, ihO, ihP, ihM, ihA, ihE⟩ := ih
    refine ⟨fun cs v r h => ?_, fun cs v r h => ?_, fun cs kv r h => ?_,
            fun acc cs v r h => ?_, fun cs v r h => ?_, fun acc cs v r h => ?_⟩
    · -- parseValue
      rw [parseValue.eq_def] at h
      dsimp only at h
      cases hsw : skipWs cs with
      | nil => rw [hsw] at h; cases h
      | cons c rest =>
        rw [hsw] at h
        have hrest : rest <:+ cs := skipWs_cons_suffix hsw
        have hcons : c :: rest <:+ cs := hsw ▸ skipWs_suffix cs
        dsimp only at h
        iterate 14 (all_goals try split at h)
        all_goals try cases h
        all_goals try exact (ihO _ _ _ h).trans hrest
        all_goals try exact (ihA _ _ _ h).trans hrest
        all_goals try (rename_i heq; exact (parseStringBody_suffix _ _ _ heq).trans hrest)
        all_goals try (rename_i heq; exact (expectChars_suffix _ _ _ heq).trans hrest)
        all_goals try (rename_i heq; exact (lexNumber_suffix heq).trans hcons)
        all_goals try (rename_i heq
                       exact (expectChars_suffix _ _ _ heq).trans
                         ((List.suffix_cons _ _).trans hrest))
    · -- parseObjBody
      rw [parseObjBody.eq_def] at h
      dsimp only at h
      cases hsw : skipWs cs with
      | nil => rw [hsw] at h; cases h
      | cons c rest =>
        rw [hsw] at h
        have hrest : rest <:+ cs := skipWs_cons_suffix hsw
        dsimp only at h
        by_cases hc : c = '\x7d'
        · rw [if_pos hc] at h
          cases h
          exact hrest
        · rw [if_neg hc] at h
          cases hpp : parsePair fuel cs with
          | none => rw [hpp] at h; cases h
          | some p =>
            cases p with
            | mk kv r1 =>
              rw [hpp] at h
              dsimp only at h
              exact (ihM _ _ _ _ h).trans (ihP _ _ _ hpp)
    · -- parsePair
      rw [parsePair.eq_def] at h
      dsimp only at h
      cases hsw : skipWs cs with
      | nil => rw [hsw] at h; cases h
      | cons c rest =>
        rw [hsw] at h
        have hrest : rest <:+ cs := skipWs_cons_suffix hsw
        dsimp only at h
        by_cases hc : c = '\"'
        · rw [if_pos hc] at h
          cases hps : parseStringBody rest with
          | none => rw [hps] at h; cases h
          | some p =>
            cases p with
            | mk k r1 =>
              rw [hps] at h
              dsimp only at h
              cases hsw2 : skipWs r1 with
              | nil => rw [hsw2] at h; cases h
              | cons c2 r2 =>
                rw [hsw2] at h
                dsimp only at h
                by_cases hc2 : c2 = ':'
                · rw [if_pos hc2] at h
                  cases hpv : parseValue fuel r2 with
                  | none => rw [hpv] at h; cases h
                  | some q =>
                    cases q with
                    | mk v2 r3 =>
                      rw [hpv] at h
                      dsimp only at h
                      cases h
                      exact (((ihV _ _ _ hpv).trans (skipWs_cons_suffix hsw2)).trans
                        (parseStringBody_suffix _ _ _ hps)).trans hrest
                · rw [if_neg hc2] at h; cases h
        · rw [if_neg hc] at h; cases h
    · -- parseMembersRest
      rw [parseMembersRest.eq_def] at h
      dsimp only at h
      cases hsw : skipWs cs with
      | nil => rw [hsw] at h; cases h
      | cons c rest =>
        rw [hsw] at h
        have hrest : rest <:+ cs := skipWs_cons_suffix hsw
        dsimp only at h
        by_cases hc : c = '\x7d'
        · rw [if_pos hc] at h
          cases h
          exact hrest
        · rw [if_neg hc] at h
          by_cases hcm : c = ','
          · rw [if_pos hcm] at h
            cases hpp : parsePair fuel rest with
            | none => rw [hpp] at h; cases h
            | some p =>
              cases p with
              | mk kv r1 =>
                rw [hpp] at h
                dsimp only at h
                exact (ihM _ _ _ _ h).trans ((ihP _ _ _ hpp).trans hrest)
          · rw [if_neg hcm] at h; cases h
    · -- parseArrBody
      rw [parseArrBody.eq_def] at h
      dsimp only at h
      cases hsw : skipWs cs with
      | nil => rw [hsw] at h; cases h
      | cons c rest =>
        rw [hsw] at h
        have hrest : rest <:+ cs := skipWs_cons_suffix hsw
        dsimp only at h
        by_cases hc : c = ']'
        · rw [if_pos hc] at h
          cases h
          exact hrest
        · rw [if_neg hc] at h
          cases hpv : parseValue fuel cs with
          | none => rw [hpv] at h; cases h
          | some q =>
            cases q with
            | mk v1 r1 =>
              rw [hpv] at h
              dsimp only at h
              exact (ihE _ _ _ _ h).trans (ihV _ _ _ hpv)
    · -- parseElemsRest
      rw [parseElemsRest.eq_def] at h
      dsimp only at h
      cases hsw : skipWs cs with
      | nil => rw [hsw] at h; cases h
      | cons c rest =>
        rw [hsw] at h
        have hrest : rest <:+ cs := skipWs_cons_suffix hsw
        dsimp only at h
        by_cases hc : c = ']'
        · rw [if_pos hc] at h
          cases h
          exact hrest
        · rw [if_neg hc] at h
          by_cases hcm : c = ','
          · rw [if_pos hcm] at h
            cases hpv : parseValue fuel rest with
            | none => rw [hpv] at h; cases h
            | some q =>
              cases q with
              | mk v1 r1 =>
                rw [hpv] at h
                dsimp only at h
                exact (ihE _ _ _ _ h).trans ((ihV _ _ _ hpv).trans hrest)
          · rw [if_neg hcm] at h; cases h

/-- A successful `parseElemsRest` always yields an array value. -/
theorem parseElemsRest_arr : ∀ (fuel : Nat) (acc : List Json) (cs : List Char) (v : Json)
    (r : List Char), parseElemsRest fuel acc cs = some (v, r) → ∃ xs, v = Json.arr xs := by
  intro fuel
  induction fuel with
  | zero => intro acc cs v r h; cases h
  | succ fuel ih =>
    intro acc cs v r h
    rw [parseElemsRest.eq_def] at h
    dsimp only at h
    cases hsw : skipWs cs with
    | nil => rw [hsw] at h; cases h
    | cons c rest =>
      rw [hsw] at h
      dsimp only at h
      by_cases hc : c = ']'
      · rw [if_pos hc] at h
        cases h
        exact ⟨acc.reverse, rfl⟩
      · rw [if_neg hc] at h
        by_cases hcm : c = ','
        · rw [if_pos hcm] at h
          cases hpv : parseValue fuel rest with
          | none => rw [hpv] at h; cases h
          | some q =>
            cases q with
            | mk v1 r1 =>
              rw [hpv] at h
              dsimp only at h
              exact ih _ _ _ _ h
        · rw [if_neg hcm] at h; cases h

/-- A successful `parseArrBody` always yields an array value. -/
theorem parseArrBody_arr (fuel : Nat) (cs : List Char) (v : Json) (r : List Char)
    (h : parseArrBody fuel cs = some (v, r)) : ∃ xs, v = Json.arr xs := by
  cases fuel with
  | zero => cases h
  | succ fuel =>
    rw [parseArrBody.eq_def] at h
    dsimp only at h
    cases hsw : skipWs cs with
    | nil => rw [hsw] at h; cases h
    | cons c rest =>
      rw [hsw] at h
      dsimp only at h
      by_cases hc : c = ']'
      · rw [if_pos hc] at h
        cases h
        exact ⟨[], rfl⟩
      · rw [if_neg hc] at h
        cases hpv : parseValue fuel cs with
        | none => rw [hpv] at h; cases h
        | some q =>
          cases q with
          | mk v1 r1 =>
            rw [hpv] at h
            dsimp only at h
            exact parseElemsRest_arr _ _ _ _ _ h

/-- Parsing an object body or its member list succeeds only when the input
still contains a closing brace (the one that terminates the object). -/
theorem objBody_members_rbrace : ∀ fuel : Nat,
    (∀ cs v r, parseObjBody fuel cs = some (v, r) → '\x7d' ∈ cs)
    ∧ (∀ acc cs v r, parseMembersRest fuel acc cs = some (v, r) → '\x7d' ∈ cs) := by
  intro fuel
  induction fuel with
  | zero =>
    refine ⟨?_, ?_⟩
    · intro cs v r h; cases h
    · intro acc cs v r h; cases h
  | succ fuel ih =>
    obtain ⟨ihO, ihM⟩ := ih
    constructor
    · intro cs v r h
      rw [parseObjBody.eq_def] at h
      dsimp only at h
      cases hsw : skipWs cs with
      | nil => rw [hsw] at h; cases h
      | cons c rest =>
        rw [hsw] at h
        dsimp only at h
        by_cases hc : c = '\x7d'
        · subst hc; exact skipWs_cons_mem hsw
        · rw [if_neg hc] at h
          cases hpp : parsePair fuel cs with
          | none => rw [hpp] at h; cases h
          | some p =>
            cases p with
            | mk kv r1 =>
              rw [hpp] at h
              dsimp only at h
              exact ((parser_suffix fuel).2.2.1 _ _ _ hpp).subset (ihM _ _ _ _ h)
    · intro acc cs v r h
      rw [parseMembersRest.eq_def] at h
      dsimp only at h
      cases hsw : skipWs cs with
      | nil => rw [hsw] at h; cases h
      | cons c rest =>
        rw [hsw] at h
        dsimp only at h
        by_cases hc : c = '\x7d'
        · subst hc; exact skipWs_cons_mem hsw
        · rw [if_neg hc] at h
          by_cases hcm : c = ','
          · rw [if_pos hcm] at h
            cases hpp : parsePair fuel rest with
            | none => rw [hpp] at h; cases h
            | some p =>
              cases p with
              | mk kv r1 =>
                rw [hpp] at h
                dsimp only at h
                exact (skipWs_cons_suffix hsw).subset
                  (((parser_suffix fuel).2.2.1 _ _ _ hpp).subset (ihM _ _ _ _ h))
          · rw [if_neg hcm] at h; cases h

/-- A parse that yields an *object* can only have entered the `\x7b` branch,
so the input contains both braces. -/
theorem parseValue_obj_braces (fuel : Nat) (cs : List Char) (kvs : List (List Char × Json))
    (r : List Char) (h : parseValue fuel cs = some (Json.obj kvs, r)) :
    '\x7b' ∈ cs ∧ '\x7d' ∈ cs := by
  cases fuel with
  | zero => cases h
  | succ fuel =>
    rw [parseValue.eq_def] at h
    dsimp only at h
    cases hsw : skipWs cs with
    | nil => rw [hsw] at h; cases h
    | cons c rest =>
      rw [hsw] at h
      dsimp only at h
      by_cases hc : c = '\x7b'
      · rw [if_pos hc] at h
        subst hc
        exact ⟨skipWs_cons_mem hsw,
          (skipWs_cons_suffix hsw).subset ((objBody_members_rbrace fuel).1 _ _ _ h)⟩
      · exfalso
        rw [if_neg hc] at h
        iterate 14 (all_goals try split at h)
        all_goals try (obtain ⟨xs, hxs⟩ := parseArrBody_arr _ _ _ _ h; cases hxs)
        all_goals cases h

/-- `json.loads` output that is an object implies the raw text contained both
an opening and a closing brace. -/
theorem json_loads_obj_braces (t : List Char) (kvs : List (List Char × Json))
    (h : json_loads t = some (Json.obj kvs)) : '\x7b' ∈ t ∧ '\x7d' ∈ t := by
  unfold json_loads at h
  cases hpv : parseValue (t.length + 1) t with
  | none => rw [hpv] at h; cases h
  | some q =>
    cases q with
    | mk v rest =>
      rw [hpv] at h
      dsimp only at h
      by_cases hsw : skipWs rest = []
      · rw [if_pos hsw] at h
        cases h
        exact parseValue_obj_braces _ _ _ _ hpv
      · rw [if_neg hsw] at h; cases h

/-- A turn whose envelope is an `ERROR` envelope takes the error-display
branch: it never raises, it just shows the message and appends to history. -/
theorem process_exc_none_of_error_envelope (llm : LlmOracle) (bq : BqOracle)
    (prompt : List Char) (s : SessionState) (log : CallLog) (m : List Char)
    (henv : (get_assistant_response llm bq prompt s.history_for_api log).1 = errorEnvelope m) :
    (process_and_display_prompt llm bq prompt s log).exc = none := by
  simp only [process_and_display_prompt]
  cases hga : get_assistant_response llm bq prompt s.history_for_api log with
  | mk rd lg =>
    rw [hga] at henv
    dsimp only at henv
    subst henv
    dsimp only
    have h1 : isStrVal (jsonGet (errorEnvelope m) actionKey) clarifyStr = false := rfl
    have h2 : isStrVal (jsonGet (errorEnvelope m) actionKey) dataStr = false := rfl
    rw [h1, h2]
    rfl

/-- C4 (amended): for every raw model text with no `\x7b` or no `\x7d`, the
dispatcher returns an envelope whose action is `ERROR` and the turn completes
without raising to the UI layer; when the brace-free text additionally fails
to decode as JSON this is precisely the JSON-decode (`MalformedResponse`)
error envelope.  (The unamended claim — that *every* such text fails with a
MalformedResponse condition — is refuted by `C4_counterexample`: a brace-free
text that is itself valid non-object JSON decodes fine and fails later, at
attribute access, with the generic technical-error envelope instead.) -/
theorem C4_braceless_is_error (llm : LlmOracle) (bq : BqOracle) (prompt : List Char)
    (s : SessionState) (log : CallLog) (t : List Char)
    (hllm : llm (buildMessages prompt s.history_for_api) = Except.ok t)
    (hbr : '\x7b' ∉ t ∨ '\x7d' ∉ t) :
    isStrVal (jsonGet (get_assistant_response llm bq prompt s.history_for_api log).1 actionKey)
        errorStr = true
    ∧ (process_and_display_prompt llm bq prompt s log).exc = none
    ∧ (json_loads t = none →
        (get_assistant_response llm bq prompt s.history_for_api log).1 = decodeErrorEnvelope t) := by
  have hclean : clean_json_from_string t = t := clean_eq_self t hbr
  cases hjl : json_loads t with
  | none =>
    have henv : (get_assistant_response llm bq prompt s.history_for_api log).1
        = decodeErrorEnvelope t := by
      simp only [get_assistant_response, hllm, hclean, hjl]
    exact ⟨by rw [henv]; try rfl, process_exc_none_of_error_envelope llm bq prompt s log _ henv,
      fun _ => henv⟩
  | some v =>
    have hnotobj : ∀ kvs, v ≠ Json.obj kvs := by
      intro kvs hv
      subst hv
      rcases hbr with hb | hb
      · exact hb (json_loads_obj_braces t kvs hjl).1
      · exact hb (json_loads_obj_braces t kvs hjl).2
    have henv : (get_assistant_response llm bq prompt s.history_for_api log).1
        = techErrorEnvelope attrGetErrText := by
      simp only [get_assistant_response, hllm, hclean, hjl]
    refine ⟨by rw [henv]; try rfl, process_exc_none_of_error_envelope llm bq prompt s log _ henv, ?_⟩
    intro hnone
    exact Option.noConfusion hnone

/-- C4 (amended) witness: the brace-free non-JSON text `hello no braces`. -/
theorem C4_braceless_is_error_witness :
    isStrVal (jsonGet (get_assistant_response (constLlm "hello no braces".toList)
        (failBq "x".toList) "q".toList [] ⟨[], []⟩).1 actionKey) errorStr = true
    ∧ (process_and_display_prompt (constLlm "hello no braces".toList) (failBq "x".toList)
        "q".toList ⟨[], []⟩ ⟨[], []⟩).exc = none
    ∧ (json_loads "hello no braces".toList = none →
        (get_assistant_response (constLlm "hello no braces".toList) (failBq "x".toList)
          "q".toList [] ⟨[], []⟩).1 = decodeErrorEnvelope "hello no braces".toList) :=
  C4_braceless_is_error (constLlm "hello no braces".toList) (failBq "x".toList) "q".toList
    ⟨[], []⟩ ⟨[], []⟩ "hello no braces".toList rfl (Or.inl (by decide))

/-- C4 counterexample: the raw text `123` contains no brace, yet the parse
does *not* fail with the MalformedResponse (JSON-decode) condition — `123`
decodes as a JSON number, the failure happens at `.get` attribute access,
and the user sees the generic technical-error message instead of the
JSON-decode one. -/
theorem C4_counterexample :
    (get_assistant_response (constLlm "123".toList) (failBq "x".toList) "q".toList []
        ⟨[], []⟩).1 = techErrorEnvelope attrGetErrText
    ∧ (get_assistant_response (constLlm "123".toList) (failBq "x".toList) "q".toList []
        ⟨[], []⟩).1 ≠ decodeErrorEnvelope "123".toList := by
  refine ⟨rfl, ?_⟩
  intro hcontra
  exact absurd (congrArg json_dumps hcontra) (by decide)

/-! ## The EXECUTE dispatch (shared characterization) -/

/-- When the model's envelope has action `EXECUTE` with a string `content`,
`get_assistant_response` routes the SQL to BigQuery and wraps the outcome:
a successful query becomes the `DATA` envelope (rows stringified when
non-empty, the original SQL kept as `query_used`, display hints defaulted),
a failing query becomes the technical-error envelope. -/
theorem get_assistant_response_execute (llm : LlmOracle) (bq : BqOracle) (p : List Char)
    (h : List Msg) (log : CallLog) (t : List Char) (kvs : List (List Char × Json))
    (sql : List Char)
    (hllm : llm (buildMessages p h) = Except.ok t)
    (hparse : json_loads (clean_json_from_string t) = some (Json.obj kvs))
    (haction : objGet kvs actionKey = some (Json.str executeStr))
    (hcontent : objGet kvs contentKey = some (Json.str sql)) :
    (∀ df : DataFrame, bq sql = Except.ok df →
      (get_assistant_response llm bq p h log).1
        = dataEnvelope (to_dict_records (if dfEmpty df then df else astype_str df)) sql
            ((objGet kvs displayFormatKey).getD (Json.str numberStr))
            ((objGet kvs chartTypeKey).getD (Json.str barStr)))
    ∧ (∀ e : List Char, bq sql = Except.error e →
      (get_assistant_response llm bq p h log).1 = techErrorEnvelope e) := by
  have hact : isStrVal (objGet kvs actionKey) executeStr = true := by
    rw [haction]; rfl
  constructor
  · intro df hbq
    simp only [get_assistant_response, hllm, hparse, hact, hcontent, hbq,
      eq_self_iff_true, if_true]
  · intro e hbq
    simp only [get_assistant_response, hllm, hparse, hact, hcontent, hbq,
      eq_self_iff_true, if_true]

/-- C6: on an `EXECUTE` envelope, a successful query yields a `DATA` envelope
whose content is the executor's row output, carrying the original SQL as
`query_used`; a failing query yields an `ERROR` envelope with the message. -/
theorem C6_execute_dispatch (llm : LlmOracle) (bq : BqOracle) (p : List Char)
    (h : List Msg) (log : CallLog) (t : List Char) (kvs : List (List Char × Json))
    (sql : List Char)
    (hllm : llm (buildMessages p h) = Except.ok t)
    (hparse : json_loads (clean_json_from_string t) = some (Json.obj kvs))
    (haction : objGet kvs actionKey = some (Json.str executeStr))
    (hcontent : objGet kvs contentKey = some (Json.str sql)) :
    (∀ df : DataFrame, bq sql = Except.ok df →
      (get_assistant_response llm bq p h log).1
        = dataEnvelope (to_dict_records (if dfEmpty df then df else astype_str df)) sql
            ((objGet kvs displayFormatKey).getD (Json.str numberStr))
            ((objGet kvs chartTypeKey).getD (Json.str barStr)))
    ∧ (∀ e : List Char, bq sql = Except.error e →
      (get_assistant_response llm bq p h log).1 = techErrorEnvelope e) :=
  get_assistant_response_execute llm bq p h log t kvs sql hllm hparse haction hcontent

/-- The full EXECUTE completion used in witnesses. -/
def execFullText : List Char :=
  ("\x7b\"action\": \"EXECUTE\", \"content\": \"SELECT 1\", " ++
   "\"display_format\": \"currency_usd\", \"chart_type\": \"bar\"\x7d").toList

/-- The parsed member list of `execFullText`. -/
def execFullKvs : List (List Char × Json) :=
  [(actionKey, Json.str executeStr), (contentKey, Json.str "SELECT 1".toList),
   (displayFormatKey, Json.str currencyUsdStr), (chartTypeKey, Json.str barStr)]

/-- A one-row, one-column warehouse result. -/
def dfOne : DataFrame := ⟨["v".toList], [[Json.num "7".toList]]⟩

/-- C6 witness: both dispatch outcomes at concrete inputs. -/
theorem C6_execute_dispatch_witness :
    (get_assistant_response (constLlm execFullText) (constBq dfOne) "q".toList []
        ⟨[], []⟩).1
      = dataEnvelope (to_dict_records (if dfEmpty dfOne then dfOne else astype_str dfOne))
          "SELECT 1".toList
          ((objGet execFullKvs displayFormatKey).getD (Json.str numberStr))
          ((objGet execFullKvs chartTypeKey).getD (Json.str barStr))
    ∧ (get_assistant_response (constLlm execFullText) (failBq "boom".toList) "q".toList []
        ⟨[], []⟩).1 = techErrorEnvelope "boom".toList :=
  ⟨(C6_execute_dispatch (constLlm execFullText) (constBq dfOne) "q".toList [] ⟨[], []⟩
      execFullText execFullKvs "SELECT 1".toList rfl rfl rfl rfl).1 dfOne rfl,
   (C6_execute_dispatch (constLlm execFullText) (failBq "boom".toList) "q".toList [] ⟨[], []⟩
      execFullText execFullKvs "SELECT 1".toList rfl rfl rfl rfl).2 "boom".toList rfl⟩

/-- `d.get(k)` on the DATA envelope: the content field. -/
theorem jsonGet_dataEnvelope_content (c : Json) (q : List Char) (f g : Json) :
    jsonGet (dataEnvelope c q f g) contentKey = some c := rfl

/-- `d.get(k)` on the DATA envelope: the action field. -/
theorem jsonGet_dataEnvelope_action (c : Json) (q : List Char) (f g : Json) :
    jsonGet (dataEnvelope c q f g) actionKey = some (Json.str dataStr) := rfl

/-- `d.get(k)` on the DATA envelope: the query_used field. -/
theorem jsonGet_dataEnvelope_query (c : Json) (q : List Char) (f g : Json) :
    jsonGet (dataEnvelope c q f g) queryUsedKey = some (Json.str q) := rfl

/-- C9: the `DATA` envelope produced by a successful non-empty warehouse
query carries the records of the *stringified* frame — `astype(str)` ran, so
every cell value the renderer receives is a string. -/
theorem C9_data_cells_strings (llm : LlmOracle) (bq : BqOracle) (p : List Char)
    (h : List Msg) (log : CallLog) (t : List Char) (kvs : List (List Char × Json))
    (sql : List Char) (df : DataFrame)
    (hllm : llm (buildMessages p h) = Except.ok t)
    (hparse : json_loads (clean_json_from_string t) = some (Json.obj kvs))
    (haction : objGet kvs actionKey = some (Json.str executeStr))
    (hcontent : objGet kvs contentKey = some (Json.str sql))
    (hbq : bq sql = Except.ok df)
    (hrows : df.rows ≠ []) (hcols : df.cols ≠ []) :
    jsonGet (get_assistant_response llm bq p h log).1 contentKey
      = some (to_dict_records (astype_str df))
    ∧ ∀ rec ∈ (astype_str df).rows, ∀ cell ∈ rec, ∃ sv, cell = Json.str sv := by
  have hde : dfEmpty df = false := by
    simp [dfEmpty, List.isEmpty_iff, hrows, hcols]
  have hres := (get_assistant_response_execute llm bq p h log t kvs sql
    hllm hparse haction hcontent).1 df hbq
  rw [hde] at hres
  constructor
  · rw [hres]
    exact jsonGet_dataEnvelope_content _ _ _ _
  · intro rec hrec cell hcell
    simp only [astype_str, List.mem_map] at hrec
    obtain ⟨r0, hr0, rfl⟩ := hrec
    simp only [List.mem_map] at hcell
    obtain ⟨c0, hc0, rfl⟩ := hcell
    exact ⟨pyStr c0, rfl⟩

/-- C9 witness: the one-row result `dfOne`. -/
theorem C9_data_cells_strings_witness :
    jsonGet (get_assistant_response (constLlm execFullText) (constBq dfOne) "q".toList []
        ⟨[], []⟩).1 contentKey = some (to_dict_records (astype_str dfOne))
    ∧ ∀ rec ∈ (astype_str dfOne).rows, ∀ cell ∈ rec, ∃ sv, cell = Json.str sv :=
  C9_data_cells_strings (constLlm execFullText) (constBq dfOne) "q".toList [] ⟨[], []⟩
    execFullText execFullKvs "SELECT 1".toList dfOne rfl rfl rfl rfl rfl
    (by simp [dfOne]) (by simp [dfOne])

/-! ## C7: KPI versus table+chart dispatch -/

/-- C7: for a non-empty result with at least one column, the renderer shows
a single KPI exactly when the frame has one row and at most two columns
(line 223); any other shape goes to the table branch, which renders the
detail table and attempts a chart, and never shows a KPI metric. -/
theorem C7_kpi_shape (df : DataFrame) (display_format : Json) (response_data : Json)
    (hrows : df.rows ≠ []) (hcols : df.cols ≠ []) :
    (rendersAsKpi df = true ↔ (df.rows.length = 1 ∧ df.cols.length ≤ 2))
    ∧ (rendersAsKpi df = true →
        (∃ l v, DisplayItem.metric l v ∈ kpi_section df display_format
          (currencySymbol display_format))
        ∧ ∀ d, DisplayItem.dataframe d ∉ kpi_section df display_format
          (currencySymbol display_format))
    ∧ (rendersAsKpi df = false →
        ∃ disps df2, chart_section df response_data = Except.ok (disps, df2)
          ∧ DisplayItem.dataframe df ∈ disps
          ∧ (∃ ct, DisplayItem.chart ct ∈ disps)
          ∧ ∀ l v, DisplayItem.metric l v ∉ disps) := by
  have hclen : df.cols.length ≠ 0 := fun h0 => hcols (List.length_eq_zero.1 h0)
  refine ⟨?_, ?_, ?_⟩
  · simp only [rendersAsKpi, Bool.and_eq_true, Bool.or_eq_true, beq_iff_eq]
    constructor
    · rintro ⟨h1, h2⟩
      exact ⟨h1, by omega⟩
    · rintro ⟨h1, h2⟩
      exact ⟨h1, by omega⟩
  · intro _hk
    constructor
    · cases h2 : (df.cols.length == 2) with
      | true =>
        refine ⟨df.cols.headD [], formatKpiValue display_format (currencySymbol display_format)
          (((df.rows.headD []).get? 1).getD Json.null), ?_⟩
        simp only [kpi_section, h2, eq_self_iff_true, if_true]
        exact List.mem_cons_of_mem _ (List.mem_cons_of_mem _ (List.mem_cons_self _ _))
      | false =>
        refine ⟨pyTitle (pyReplaceChar (df.cols.headD []) '_' ' '),
          formatKpiValue display_format (currencySymbol display_format)
          (((df.rows.headD []).get? 0).getD Json.null), ?_⟩
        simp only [kpi_section, h2, Bool.false_eq_true, if_false]
        exact List.mem_cons_of_mem _ (List.mem_cons_self _ _)
    · intro d hd
      cases h2 : (df.cols.length == 2) <;> simp [kpi_section, h2] at hd
  · intro _hk
    have hie : df.cols.isEmpty = false := by
      simpa [List.isEmpty_iff] using hcols
    simp only [chart_section, hie, Bool.false_eq_true, if_false]
    refine ⟨_, _, rfl, by simp, ?_, ?_⟩
    · split
      · exact ⟨lineStr, by simp⟩
      · split
        · exact ⟨pieStr, by simp⟩
        · split
          · exact ⟨scatterStr, by simp⟩
          · exact ⟨barStr, by simp⟩
    · intro l v hlv
      iterate 3 (all_goals try split at hlv)
      all_goals simp at hlv

/-- A five-row, two-column frame: the end-to-end table scenario of the spec. -/
def dfFive : DataFrame :=
  ⟨["brand".toList, "revenue".toList],
   [[Json.str "a".toList, Json.num "1".toList], [Json.str "b".toList, Json.num "2".toList],
    [Json.str "c".toList, Json.num "3".toList], [Json.str "d".toList, Json.num "4".toList],
    [Json.str "e".toList, Json.num "5".toList]]⟩

/-- C7 witness: the 5×2 frame is not a KPI and renders as table + chart. -/
theorem C7_kpi_shape_witness :
    (rendersAsKpi dfFive = true ↔ (dfFive.rows.length = 1 ∧ dfFive.cols.length ≤ 2))
    ∧ (rendersAsKpi dfFive = true →
        (∃ l v, DisplayItem.metric l v ∈ kpi_section dfFive (Json.str currencyUsdStr)
          (currencySymbol (Json.str currencyUsdStr)))
        ∧ ∀ d, DisplayItem.dataframe d ∉ kpi_section dfFive (Json.str currencyUsdStr)
          (currencySymbol (Json.str currencyUsdStr)))
    ∧ (rendersAsKpi dfFive = false →
        ∃ disps df2, chart_section dfFive (Json.str barStr) = Except.ok (disps, df2)
          ∧ DisplayItem.dataframe dfFive ∈ disps
          ∧ (∃ ct, DisplayItem.chart ct ∈ disps)
          ∧ ∀ l v, DisplayItem.metric l v ∉ disps) :=
  C7_kpi_shape dfFive (Json.str currencyUsdStr) (Json.str barStr)
    (by simp [dfFive]) (by simp [dfFive])

/-! ## C10: the order of history appends on a successful DATA turn -/

/-- Looking up each column key in a row zipped with distinct column names
recovers the row. -/
theorem objGet_zip_nodup (cols : List (List Char)) (r : List Json) (x : Json)
    (hnd : cols.Nodup) (hlen : r.length = cols.length) :
    cols.map (fun k => (objGet (cols.zip r) k).getD x) = r := by
  induction cols generalizing r with
  | nil =>
    cases r with
    | nil => rfl
    | cons a b => simp at hlen
  | cons k ks ih =>
    cases r with
    | nil => simp at hlen
    | cons v vs =>
      simp only [List.zip_cons_cons, List.map_cons]
      rw [List.nodup_cons] at hnd
      have hhead : (objGet ((k, v) :: ks.zip vs) k).getD x = v := by
        simp [objGet]
      have htail : ∀ k2 ∈ ks,
          (objGet ((k, v) :: ks.zip vs) k2).getD x = (objGet (ks.zip vs) k2).getD x := by
        intro k2 hk2
        have hne : ¬ (k = k2) := fun he => hnd.1 (he ▸ hk2)
        simp [objGet, hne]
      rw [hhead, List.map_congr_left htail, ih vs hnd.2 (by simpa using hlen)]

/-- Rebuilding a DataFrame from its own `to_dict(records)` output recovers
the frame, provided the column names are distinct and the rows are aligned
(which is how the executor produces them). -/
theorem pdDataFrame_roundtrip (df : DataFrame) (hnd : df.cols.Nodup)
    (hne : df.rows ≠ []) (hlen : ∀ r ∈ df.rows, r.length = df.cols.length) :
    pdDataFrame (to_dict_records df) = Except.ok df := by
  obtain ⟨cols, rows⟩ := df
  cases rows with
  | nil => simp at hne
  | cons r0 rest =>
    simp only [to_dict_records, List.map_cons, pdDataFrame]
    have hc : (cols.zip r0).map Prod.fst = cols :=
      List.map_fst_zip _ _ (le_of_eq (hlen r0 (by simp)).symm)
    rw [hc]
    have hrow : ∀ r ∈ r0 :: rest,
        cols.map (fun k => (jsonGet (Json.obj (cols.zip r)) k).getD Json.nan) = r := by
      intro r hr
      exact objGet_zip_nodup cols r Json.nan hnd (hlen r hr)
    congr 1
    congr 1
    rw [List.cons_eq_cons]
    refine ⟨hrow r0 (List.mem_cons_self _ _), ?_⟩
    rw [List.map_map]
    exact (List.map_congr_left (fun r hr =>
      hrow r (List.mem_cons_of_mem _ hr))).trans (List.map_id _)

theorem isStrVal_dataEnvelope_clarify (c : Json) (q : List Char) (f g : Json) :
    isStrVal (jsonGet (dataEnvelope c q f g) actionKey) clarifyStr = false := rfl

theorem isStrVal_dataEnvelope_data (c : Json) (q : List Char) (f g : Json) :
    isStrVal (jsonGet (dataEnvelope c q f g) actionKey) dataStr = true := rfl

/-- `chart_section` on a frame with at least one column succeeds, returning
a frame with the same columns and the same number of rows (only the `y_col`
cells were coerced). -/
theorem chart_section_shape (d : DataFrame) (rd : Json) (h : d.cols ≠ []) :
    ∃ disps df2, chart_section d rd = Except.ok (disps, df2)
      ∧ df2.cols = d.cols ∧ df2.rows.length = d.rows.length := by
  have hie : d.cols.isEmpty = false := by simpa [List.isEmpty_iff] using h
  simp only [chart_section, hie, Bool.false_eq_true, if_false]
  refine ⟨_, _, rfl, ?_, ?_⟩
  · simp only [dfSetColNumeric]
    split <;> rfl
  · simp only [dfSetColNumeric]
    split <;> simp

/-- C10: on a successful `EXECUTE`→`DATA` turn with a non-empty result, the
model-bound history receives exactly three appends, in this order: the
hidden assistant `DATA_RESULT` summary (the CSV of the first thirty rendered
rows), then the user's question, then the serialized response envelope — and
the turn completes without raising. -/
theorem C10_history_append_order (llm : LlmOracle) (bq : BqOracle) (prompt : List Char)
    (s : SessionState) (log : CallLog) (t : List Char) (kvs : List (List Char × Json))
    (sql : List Char) (df : DataFrame)
    (hllm : llm (buildMessages prompt s.history_for_api) = Except.ok t)
    (hparse : json_loads (clean_json_from_string t) = some (Json.obj kvs))
    (haction : objGet kvs actionKey = some (Json.str executeStr))
    (hcontent : objGet kvs contentKey = some (Json.str sql))
    (hbq : bq sql = Except.ok df)
    (hrows : df.rows ≠ []) (hcols : df.cols ≠ [])
    (hnd : df.cols.Nodup) (hlen : ∀ r ∈ df.rows, r.length = df.cols.length) :
    ∃ csvBody : List Char,
      (process_and_display_prompt llm bq prompt s log).exc = none
      ∧ (process_and_display_prompt llm bq prompt s log).history_for_api
          = s.history_for_api ++
            [⟨roleAssistant, Json.str (json_dumps (dataResultJson csvBody))⟩,
             ⟨roleUser, Json.str prompt⟩,
             ⟨roleAssistant, Json.str (json_dumps
               ((get_assistant_response llm bq prompt s.history_for_api log).1))⟩] := by
  have hde : dfEmpty df = false := by
    simp [dfEmpty, List.isEmpty_iff, hrows, hcols]
  have henv := (get_assistant_response_execute llm bq prompt s.history_for_api log t kvs sql
    hllm hparse haction hcontent).1 df hbq
  simp only [hde, Bool.false_eq_true, if_false] at henv
  have hnd2 : (astype_str df).cols.Nodup := by simpa [astype_str] using hnd
  have hne2 : (astype_str df).rows ≠ [] := by simp [astype_str, hrows]
  have hcols2 : (astype_str df).cols ≠ [] := by simpa [astype_str] using hcols
  have hlen2 : ∀ r ∈ (astype_str df).rows, r.length = (astype_str df).cols.length := by
    intro r hr
    simp only [astype_str, List.mem_map] at hr
    obtain ⟨r0, hr0, rfl⟩ := hr
    simpa [astype_str] using hlen r0 hr0
  have hpd : pdDataFrame (to_dict_records (astype_str df)) = Except.ok (astype_str df) :=
    pdDataFrame_roundtrip _ hnd2 hne2 hlen2
  have hpf : pyFalsy (to_dict_records (astype_str df)) = false := by
    simp [to_dict_records, pyFalsy, astype_str, List.isEmpty_iff, hrows]
  simp only [process_and_display_prompt]
  cases hga : get_assistant_response llm bq prompt s.history_for_api log with
  | mk rd lg =>
    rw [hga] at henv
    dsimp only at henv
    subst henv
    dsimp only
    simp only [isStrVal_dataEnvelope_clarify, isStrVal_dataEnvelope_data,
      Bool.false_eq_true, if_false, eq_self_iff_true, if_true,
      jsonGet_dataEnvelope_content, hpf, hpd]
    cases hkpi : rendersAsKpi (astype_str df) with
    | true =>
      simp only [hkpi, if_true]
      have hde2 : dfEmpty (astype_str df) = false := by
        simp [dfEmpty, List.isEmpty_iff, hne2, hcols2]
      refine ⟨df_to_csv (df_head 30 (astype_str df)), ?_, ?_⟩ <;>
        simp [data_tail, jsonGet_dataEnvelope_query, finishTurn, hde2, List.append_assoc]
    | false =>
      simp only [hkpi, Bool.false_eq_true, if_false]
      obtain ⟨disps, df2, hcs, hc2, hl2⟩ := chart_section_shape (astype_str df)
        (dataEnvelope (to_dict_records (astype_str df)) sql
          ((objGet kvs displayFormatKey).getD (Json.str numberStr))
          ((objGet kvs chartTypeKey).getD (Json.str barStr))) hcols2
      simp only [hcs]
      have hde2 : dfEmpty df2 = false := by
        have : df2.rows ≠ [] := by
          intro hnil
          rw [hnil] at hl2
          exact hne2 (List.length_eq_zero.1 hl2.symm)
        simp [dfEmpty, List.isEmpty_iff, this, hc2.symm ▸ hcols2]
      refine ⟨df_to_csv (df_head 30 df2), ?_, ?_⟩ <;>
        simp [data_tail, jsonGet_dataEnvelope_query, finishTurn, hde2, List.append_assoc]

/-- C10 witness: a five-row query result routed through a full turn. -/
theorem C10_history_append_order_witness :
    ∃ csvBody : List Char,
      (process_and_display_prompt (constLlm execFullText) (constBq dfFive) "q".toList
          ⟨[], []⟩ ⟨[], []⟩).exc = none
      ∧ (process_and_display_prompt (constLlm execFullText) (constBq dfFive) "q".toList
          ⟨[], []⟩ ⟨[], []⟩).history_for_api
          = ([] : List Msg) ++
            [⟨roleAssistant, Json.str (json_dumps (dataResultJson csvBody))⟩,
             ⟨roleUser, Json.str "q".toList⟩,
             ⟨roleAssistant, Json.str (json_dumps
               ((get_assistant_response (constLlm execFullText) (constBq dfFive) "q".toList
                 [] ⟨[], []⟩).1))⟩] :=
  C10_history_append_order (constLlm execFullText) (constBq dfFive) "q".toList
    ⟨[], []⟩ ⟨[], []⟩ execFullText execFullKvs "SELECT 1".toList dfFive
    rfl rfl rfl rfl rfl (by simp [dfFive]) (by simp [dfFive]) (by decide) (by decide)

/-! ## C2: the rendered KPI text for value 1234.5 -/

/-- C2 counterexample: the renderer's comma/dot swap produces Brazilian-style
separators and the currency symbol carries a trailing space, so the rendered
texts are not the claimed `1,234.50%` / `$1,234.50`. -/
theorem C2_counterexample :
    formatKpiValue (Json.str percentageStr) (currencySymbol (Json.str percentageStr))
        (Json.str "1234.5".toList) ≠ "1,234.50%".toList
    ∧ formatKpiValue (Json.str currencyUsdStr) (currencySymbol (Json.str currencyUsdStr))
        (Json.str "1234.5".toList) ≠ "$1,234.50".toList := by
  constructor <;> decide

/-- C2 (amended): for a one-row, one-column result holding `1234.5`, the
rendered KPI text is `1.234,50%` for percentage format and `$ 1.234,50` for
USD currency format (thousands grouped with dots, decimal comma, currency
symbol followed by a space — the comma/dot swap of app.py lines 237–240). -/
theorem C2_kpi_format :
    kpi_section ⟨["valor".toList], [[Json.str "1234.5".toList]]⟩ (Json.str percentageStr)
        (currencySymbol (Json.str percentageStr))
      = [DisplayItem.markdown (Json.str metricHeaderStr),
         DisplayItem.metric "Valor".toList "1.234,50%".toList]
    ∧ kpi_section ⟨["valor".toList], [[Json.str "1234.5".toList]]⟩ (Json.str currencyUsdStr)
        (currencySymbol (Json.str currencyUsdStr))
      = [DisplayItem.markdown (Json.str metricHeaderStr),
         DisplayItem.metric "Valor".toList "$ 1.234,50".toList] :=
  ⟨rfl, rfl⟩

/-! ## C1: there is no memoization of (question, history) -/

/-- The envelope component of `get_assistant_response` does not depend on the
call log. -/
theorem get_assistant_response_fst_log (llm : LlmOracle) (bq : BqOracle) (p : List Char)
    (h : List Msg) (log log' : CallLog) :
    (get_assistant_response llm bq p h log).1 = (get_assistant_response llm bq p h log').1 := by
  simp only [get_assistant_response]
  cases llm (buildMessages p h) with
  | error e => rfl
  | ok t =>
    dsimp only
    cases json_loads (clean_json_from_string t) with
    | none => rfl
    | some rj =>
      cases rj <;> try rfl
      case obj kvs =>
        dsimp only
        by_cases hx : isStrVal (objGet kvs actionKey) executeStr = true
        · simp only [if_pos hx]
          cases objGet kvs contentKey with
          | none => rfl
          | some c =>
            cases c <;> try rfl
            next sql => dsimp only; cases bq sql <;> rfl
        · simp only [if_neg hx]

/-- Every invocation of `get_assistant_response` appends exactly one entry —
the full system/history/user payload — to the LLM call log: the Cerebras call
is issued unconditionally, with no cache in front of it. -/
theorem get_assistant_response_llm_log (llm : LlmOracle) (bq : BqOracle) (p : List Char)
    (h : List Msg) (log : CallLog) :
    ((get_assistant_response llm bq p h log).2).llmCalls = log.llmCalls ++ [buildMessages p h] := by
  simp only [get_assistant_response]
  cases llm (buildMessages p h) with
  | error e => rfl
  | ok t =>
    dsimp only
    cases json_loads (clean_json_from_string t) with
    | none => rfl
    | some rj =>
      cases rj <;> try rfl
      case obj kvs =>
        dsimp only
        by_cases hx : isStrVal (objGet kvs actionKey) executeStr = true
        · simp only [if_pos hx]
          cases objGet kvs contentKey with
          | none => rfl
          | some c =>
            cases c <;> try rfl
            next sql => dsimp only; cases bq sql <;> rfl
        · simp only [if_neg hx]

/-- C1 (amended): there is no memoized cache — submitting the identical
question with the identical history a second time recomputes the identical
envelope but issues a fresh call to the external model each time (the LLM
call log grows by one per submission, two after two submissions). -/
theorem C1_no_memoization (llm : LlmOracle) (bq : BqOracle) (p : List Char) (h : List Msg)
    (log : CallLog) :
    (get_assistant_response llm bq p h ((get_assistant_response llm bq p h log).2)).1
      = (get_assistant_response llm bq p h log).1
    ∧ ((get_assistant_response llm bq p h ((get_assistant_response llm bq p h log).2)).2).llmCalls.length
      = log.llmCalls.length + 2 := by
  refine ⟨get_assistant_response_fst_log llm bq p h _ _, ?_⟩
  rw [get_assistant_response_llm_log, get_assistant_response_llm_log]
  simp

/-- C1 counterexample: a concrete repeated (question, history) pair.  After
the second identical submission the model has been called twice — not once,
as the claimed memoized cache would require. -/
theorem C1_counterexample :
    ((get_assistant_response (constLlm clarifyText) (failBq "x".toList) "oi".toList []
        ⟨[], []⟩).2).llmCalls.length = 1
    ∧ ((get_assistant_response (constLlm clarifyText) (failBq "x".toList) "oi".toList []
        ((get_assistant_response (constLlm clarifyText) (failBq "x".toList) "oi".toList []
          ⟨[], []⟩).2)).2).llmCalls.length = 2
    ∧ ((get_assistant_response (constLlm clarifyText) (failBq "x".toList) "oi".toList []
        ((get_assistant_response (constLlm clarifyText) (failBq "x".toList) "oi".toList []
          ⟨[], []⟩).2)).2).llmCalls.length ≠ 1 := by
  refine ⟨rfl, rfl, ?_⟩
  intro hcontra
  exact absurd (hcontra : (2 : Nat) = 1) (by decide)

/-! ## C3: the zero-row DATA turn raises instead of recovering -/

/-- C3 (code bug): a turn whose EXECUTE query *succeeds* but returns zero
rows reaches line 333's `if not df.empty` with `df` never assigned (it is
only assigned in the non-empty branch on line 211), so `UnboundLocalError`
escapes to the UI layer and the model-bound history receives no appends —
contradicting the claim that every post-authentication failure is converted
to a visible assistant message.  The envelope itself was fine; the raise is
a slip in the renderer, and lines 207–209 show the empty case was meant to
be handled gracefully. -/
theorem C3_zero_rows_raises :
    (process_and_display_prompt (constLlm execText) (constBq ⟨["v".toList], []⟩) "q".toList
        ⟨[], []⟩ ⟨[], []⟩).exc = some (PyExc.unboundLocal dfVarName)
    ∧ (process_and_display_prompt (constLlm execText) (constBq ⟨["v".toList], []⟩) "q".toList
        ⟨[], []⟩ ⟨[], []⟩).history_for_api = [] :=
  ⟨rfl, rfl⟩

/-! ## C8: clearing the conversation -/

/-- C8: the clear-conversation handler empties both the displayed message
log and the model-bound API history in the same operation, and the next
model call is built from the emptied history — its payload is exactly the
system instruction plus the new question, as if no prior turns existed. -/
theorem C8_clear_conversation (s : SessionState) (llm : LlmOracle) (bq : BqOracle)
    (prompt : List Char) (log : CallLog) :
    (btn_clear_click s).messages = [] ∧ (btn_clear_click s).history_for_api = []
    ∧ ((get_assistant_response llm bq prompt (btn_clear_click s).history_for_api log).2).llmCalls
        = log.llmCalls ++ [[systemMsg, mkUserMsg prompt]] :=
  ⟨rfl, rfl, by rw [get_assistant_response_llm_log]; rfl⟩

end MuletaBI
